import Mathlib

/-!
Verification of the sopel-github webhook formatting engine.

This file gives a shallow embedding, in Lean 4, of the parts of the
sopel-github repository that the verified properties are about:

* `sopel_github/formatting.py` — the comment-shortening helper
  `fmt_short_comment_body`, the push-summary builder
  `fmt_push_summary_message`, the per-event formatters and the
  event/action dispatch `get_formatted_response`;
* the webhook HTTP endpoint (signature verification and the
  acknowledge-then-deliver ordering), which in the repository lives in
  `sopel_github/webhook.py`; that file is not part of the source tree
  provided here (only the legacy `sopel_modules/github/webhook.py`
  variant is), so those two components are modelled from the
  specification and clearly marked as such.

Python strings are modelled as `List Char`; Python dynamic values
(parsed JSON payloads) as the inductive `J`; fallible Python code runs
in `Except PyErr`.  Machine-level details that the properties do not
depend on (hash internals, HTTP transport) are abstracted, and each
abstraction is recorded in the corresponding doc comment.
-/

set_option maxHeartbeats 1000000
set_option maxRecDepth 100000

namespace SopelGithub

/-- Python strings are sequences of characters. -/
abbrev Str := List Char

/-- Coerce a Lean string literal to the `Str` model. -/
def str (s : String) : Str := s.data

/-- The ASCII part of the whitespace set recognised by Python
`str.strip` / the regex class `\s` (`' '`, `'\t'`, `'\n'`, `'\r'`,
`'\x0b'`, `'\x0c'`).  Payload text handled by this plugin is treated as
not containing the further Unicode space characters. -/
def pyIsSpace (c : Char) : Bool :=
  c = ' ' || c = '\t' || c = '\n' || c = '\r' || c = '\x0b' || c = '\x0c'

/-- Python `str.strip()` with no arguments: drop leading and trailing
whitespace. -/
def pyStrip (s : Str) : Str :=
  ((s.dropWhile pyIsSpace).reverse.dropWhile pyIsSpace).reverse

/-- The line-break characters recognised by Python `str.splitlines`. -/
def isLineBreakChar (c : Char) : Bool :=
  c = '\n' || c = '\r' || c = '\x0b' || c = '\x0c' ||
  c = '\x1c' || c = '\x1d' || c = '\x1e' || c = '\x85' ||
  c = '\u2028' || c = '\u2029'

/-- Worker for `pySplitlines`: `acc` is the current line, reversed.  A
`"\r\n"` pair counts as a single break; a break at the very end of the
input does not open a trailing empty line. -/
def pySplitlinesGo (acc : Str) : Str → List Str
  | [] => [acc.reverse]
  | '\r' :: '\n' :: rest =>
      match rest with
      | [] => [acc.reverse]
      | r :: rs => acc.reverse :: pySplitlinesGo [] (r :: rs)
  | c :: rest =>
      if isLineBreakChar c then
        match rest with
        | [] => [acc.reverse]
        | r :: rs => acc.reverse :: pySplitlinesGo [] (r :: rs)
      else pySplitlinesGo (c :: acc) rest

/-- Python `str.splitlines()`: split at line boundaries, not keeping
them; the empty string yields the empty list. -/
def pySplitlines : Str → List Str
  | [] => []
  | c :: rest => pySplitlinesGo [] (c :: rest)

/-- Worker for `markdownHeading`: after at least one `'#'`, the regex
`#+\s+` requires a whitespace character. -/
def mhAfterHash : Str → Bool
  | [] => false
  | '#' :: rest => mhAfterHash rest
  | c :: _ => pyIsSpace c

/-- `MARKDOWN_HEADING.match(line)` from `sopel_github/formatting.py`:
the compiled regex is `#+\s+`, anchored at the start by `re.match`. -/
def markdownHeading : Str → Bool
  | '#' :: rest => mhAfterHash rest
  | _ => false

/-- A character matched by the regex class `[a-f0-9]`. -/
def isHexChar (c : Char) : Bool :=
  ('a' ≤ c && c ≤ 'f') || ('0' ≤ c && c ≤ '9')

/-- `re.sub(r'[a-f0-9]{40}', lambda m: m.group(0)[:7], s)` from
`fmt_short_comment_body`: scanning left to right, each (non-overlapping)
run of exactly 40 hex characters is replaced by its first 7 characters. -/
def hexAbbrevGo : Nat → Str → Str
  | _, [] => []
  | 0, s => s
  | fuel + 1, c :: rest =>
      if 40 ≤ (c :: rest).length ∧ ((c :: rest).take 40).all isHexChar then
        (c :: rest).take 7 ++ hexAbbrevGo fuel ((c :: rest).drop 40)
      else
        c :: hexAbbrevGo fuel rest

/-- Entry point: the fuel `s.length` always suffices, since each
replaced run consumes 40 characters and each kept character one. -/
def hexAbbrev (s : Str) : Str := hexAbbrevGo s.length s

/-- Python `str.expandtabs()` as run by `textwrap`: each tab advances to
the next multiple of 8 columns; the column counter restarts after a line
break. -/
def expandTabsGo (col : Nat) : Str → Str
  | [] => []
  | '\t' :: rest => List.replicate (8 - col % 8) ' ' ++ expandTabsGo 0 rest
  | c :: rest =>
      if c = '\n' || c = '\r' then c :: expandTabsGo 0 rest
      else c :: expandTabsGo (col + 1) rest

/-- Entry point for tab expansion. -/
def pyExpandTabs (s : Str) : Str := expandTabsGo 0 s

/-- `textwrap`'s `replace_whitespace` step: every whitespace character
becomes a single space. -/
def pyReplaceWs (s : Str) : Str :=
  s.map (fun c => if pyIsSpace c then ' ' else c)

/-- Split a (whitespace-normalised) text into the alternating maximal
runs of spaces and of non-space characters that `textwrap` fills lines
from.  `textwrap` additionally splits non-space chunks at certain
hyphens (`break_on_hyphens`); chunk granularity below the space level
only moves the exact cut point of an over-long line and is not modelled. -/
def chunksOfGo : Nat → Str → List Str
  | _, [] => []
  | 0, s => [s]
  | fuel + 1, c :: rest =>
      (c :: rest.takeWhile (fun d => (d == ' ') == (c == ' ')))
        :: chunksOfGo fuel (rest.dropWhile (fun d => (d == ' ') == (c == ' ')))

/-- Entry point: the fuel `s.length` always suffices, since each chunk
consumes at least one character. -/
def chunksOf (s : Str) : List Str := chunksOfGo s.length s

/-- Greedy first-line fill of `textwrap._wrap_chunks`: chunks are added
while they fit in `w` columns; a chunk longer than `w` that does not fit
is broken at the remaining width (`break_long_words`). -/
def wrapGreedy (w : Nat) : Nat → Str → List Str → Str
  | _, cur, [] => cur
  | curLen, cur, ch :: rest =>
      if curLen + ch.length ≤ w then wrapGreedy w (curLen + ch.length) (cur ++ ch) rest
      else if w < ch.length then cur ++ ch.take (w - curLen)
      else cur

/-- Drop the trailing run of spaces (the `drop_whitespace` step applied
to the final chunk of a wrapped line). -/
def dropTrailingSpaces (s : Str) : Str :=
  (s.reverse.dropWhile (fun c => c == ' ')).reverse

/-- The first output line of `textwrap.wrap(text, w)`: expand tabs,
normalise whitespace, chop into chunks, fill greedily and drop trailing
whitespace. -/
def wrapFirstLine (w : Nat) (text : Str) : Str :=
  dropTrailingSpaces (wrapGreedy w 0 [] (chunksOf (pyReplaceWs (pyExpandTabs text))))

/-- Exceptions a modelled Python fragment can raise.  The constructors
distinguish the exception class only; messages are not modelled, and in
a few places noted locally an equivalent class is substituted when
Python would raise at a slightly later expression of the same
statement. -/
inductive PyErr where
  | keyError
  | typeError
  | indexError
  | attributeError
deriving DecidableEq

/-- A parsed JSON payload value, as handed to the formatters after
`bottle.request.json` decoding: `None`, booleans, numbers (the payloads
verified here carry only integers), strings, lists and objects.  An
object is its key/value pairs in document order. -/
inductive J where
  | null
  | bool (b : Bool)
  | num (n : Int)
  | str (s : Str)
  | arr (elems : List J)
  | obj (fields : List (Str × J))

/-- First binding of a key in an association list (payload objects do
not repeat keys). -/
def lookupPairs {α : Type} : List (Str × α) → Str → Option α
  | [], _ => none
  | (k, v) :: rest, key => if k = key then some v else lookupPairs rest key

/-- Key lookup on an object value; `none` on a missing key or a
non-object. -/
def J.lookup : J → Str → Option J
  | .obj fields, key => lookupPairs fields key
  | _, _ => none

/-- Whether the value is an object. -/
def J.isObj : J → Bool
  | .obj _ => true
  | _ => false

/-- Python subscript `j[key]`: `KeyError` on a missing key,
`TypeError` when the value is not a dict. -/
def getItem (j : J) (key : Str) : Except PyErr J :=
  match j.lookup key with
  | some v => .ok v
  | none => if j.isObj then .error .keyError else .error .typeError

/-- Python `dict.get(key, default)`; a non-dict has no `get` method. -/
def J.getDefault (j : J) (key : Str) (d : J) : Except PyErr J :=
  match j with
  | .obj fields => .ok ((lookupPairs fields key).getD d)
  | _ => .error .attributeError

/-- Python `key in j` as used by this code, always on dict payload
members: key presence.  (On a list or string Python `in` would test
membership or substring instead; no call site under verification does
that.) -/
def J.containsKey (j : J) (key : Str) : Bool :=
  (j.lookup key).isSome

/-- Python `is None`. -/
def J.isNull : J → Bool
  | .null => true
  | _ => false

/-- Python truthiness of a payload value. -/
def pyTruthy : J → Bool
  | .null => false
  | .bool b => b
  | .num n => !(n == 0)
  | .str s => !s.isEmpty
  | .arr elems => !elems.isEmpty
  | .obj fields => !fields.isEmpty

/-- Equality test of a payload value against a string literal, the
Python `j == 'lit'` (no cross-type coercions arise for strings). -/
def jEqStr (j : J) (s : Str) : Bool :=
  match j with
  | .str t => t == s
  | _ => false

/-- A value in a context that requires a Python `str` (string
concatenation, `re` functions, slicing, joining into a coloured
fragment); anything else raises `TypeError`. -/
def asStr : J → Except PyErr Str
  | .str s => .ok s
  | _ => .error .typeError

/-- Python `len`; unsized values raise `TypeError`. -/
def pyLen : J → Except PyErr Nat
  | .arr elems => .ok elems.length
  | .str s => .ok s.length
  | .obj fields => .ok fields.length
  | _ => .error .typeError

/-- Python index subscript `j[i]` on a list. -/
def getIndex (j : J) (i : Nat) : Except PyErr J :=
  match j with
  | .arr elems =>
      match elems[i]? with
      | some v => .ok v
      | none => .error .indexError
  | _ => .error .typeError

mutual

/-- Structural equality of payload values, the Python `==` for the
JSON-shaped data compared by the formatters (login strings and commit
ids; Python's numeric cross-type equalities and order-insensitive dict
equality do not arise there). -/
def pyEqJ : J → J → Bool
  | .null, .null => true
  | .bool a, .bool b => a == b
  | .num a, .num b => a == b
  | .str a, .str b => a == b
  | .arr a, .arr b => pyEqJList a b
  | .obj a, .obj b => pyEqJFields a b
  | _, _ => false

/-- Elementwise list equality for `pyEqJ`. -/
def pyEqJList : List J → List J → Bool
  | [], [] => true
  | a :: as, b :: bs => pyEqJ a b && pyEqJList as bs
  | _, _ => false

/-- Pairwise field equality for `pyEqJ`. -/
def pyEqJFields : List (Str × J) → List (Str × J) → Bool
  | [], [] => true
  | (k, v) :: as, (k2, v2) :: bs => k == k2 && pyEqJ v v2 && pyEqJFields as bs
  | _, _ => false

end

/-- Python `needle in hay` on strings: substring test. -/
def strContains (needle : Str) : Str → Bool
  | [] => needle.isEmpty
  | c :: rest => needle.isPrefixOf (c :: rest) || strContains needle rest

/-- Decimal rendering of a natural number, Python `str(len(...))`. -/
def natStr (n : Nat) : Str := (Nat.repr n).data

/-- The text a `'{}'.format(...)` slot renders for a payload value
(Python `str()`).  The list/dict representations are abbreviated; no
formatter slot under verification receives one. -/
def pyFormatJ : J → Str
  | .null => str "None"
  | .bool true => str "True"
  | .bool false => str "False"
  | .num n => (toString n).data
  | .str s => s
  | .arr _ => str "[…]"
  | .obj _ => str "\x7b…\x7d"

/-- One row of the `gh_hooks` subscription table, in the column order
`(channel, repo_name, enabled, url_color, tag_color, repo_color,
name_color, hash_color, branch_color)` that the tuple indices
`row[0]`, `row[3]` … `row[8]` of the source refer to. -/
structure GhHookRow where
  channel : Str
  repo_name : Str
  enabled : Bool
  url_color : Nat
  tag_color : Nat
  repo_color : Nat
  name_color : Nat
  hash_color : Nat
  branch_color : Nat

/-- Model of `sopel.formatting.color(text, fg)` (the host chat library):
a falsy colour number returns the text unchanged, otherwise the text is
wrapped as `"\x03" + str(fg) + text + "\x03"`. -/
def colorFg (s : Str) (fg : Nat) : Str :=
  if fg = 0 then s
  else '\x03' :: (natStr fg ++ s ++ ['\x03'])

/-- `fmt_url` from `sopel_github/formatting.py`, with the row passed
explicitly instead of read from the `current_row` global. -/
def fmt_url (s : Str) (row : GhHookRow) : Str := colorFg s row.url_color

/-- `fmt_tag`, colouring with `row[4]`. -/
def fmt_tag (s : Str) (row : GhHookRow) : Str := colorFg s row.tag_color

/-- `fmt_repo`, colouring with `row[5]`. -/
def fmt_repo (s : Str) (row : GhHookRow) : Str := colorFg s row.repo_color

/-- `fmt_name`, colouring with `row[6]`. -/
def fmt_name (s : Str) (row : GhHookRow) : Str := colorFg s row.name_color

/-- `fmt_hash`, colouring with `row[7]`. -/
def fmt_hash (s : Str) (row : GhHookRow) : Str := colorFg s row.hash_color

/-- `fmt_branch`, colouring with `row[8]`. -/
def fmt_branch (s : Str) (row : GhHookRow) : Str := colorFg s row.branch_color

/-- The `emojize` helper: with the optional emoji library absent the
source sets `emojize = lambda text: text`; that identity fallback is
the environment modelled. -/
def emojize (s : Str) : Str := s

/-- The filter of the line comprehension in `fmt_short_comment_body`:
a raw line is kept when it is non-empty, is not a Markdown quote
(leading `'>'`), not a Markdown heading and not a commented-out
HTML-style line. -/
def commentLineKept : Str → Bool
  | [] => false
  | c :: rest =>
      !(c == '>') && !markdownHeading (c :: rest) && !(str "<!-").isPrefixOf (c :: rest)

/-- `textwrap.wrap(text, w)[0]`: for the already-stripped single lines
the caller passes, `wrap` returns an empty list (making the subscript
raise `IndexError`) exactly when the text has no content. -/
def wrapFirst (w : Nat) (text : Str) : Except PyErr Str :=
  match wrapFirstLine w text with
  | [] => .error .indexError
  | c :: rest => .ok (c :: rest)

/-- `fmt_short_comment_body(body)`: the comment-shortening helper.
`body is None or body.strip() == ''` yields the `"(empty comment)"`
placeholder; a surviving-line list that is empty after the quote /
heading / HTML-comment filter yields `"(no body text)"`; otherwise the
first surviving line is stripped, 40-character hex runs are abbreviated
to 7, the line is wrapped to 250 columns and `" […]"` is appended when
other lines existed or the wrap cut the line. -/
def fmt_short_comment_body (body : J) : Except PyErr Str :=
  match body with
  | .null => .ok (str "(empty comment)")
  | .str b =>
      if pyStrip b = [] then .ok (str "(empty comment)")
      else
        match ((pySplitlines b).filter commentLineKept).map pyStrip with
        | [] => .ok (str "(no body text)")
        | l0 :: restLines =>
            let line := hexAbbrev l0
            match wrapFirst 250 line with
            | .error e => .error e
            | .ok short =>
                if restLines ≠ [] ∨ short ≠ line then .ok (short ++ str " […]")
                else .ok short
  | _ => .error .attributeError

/-- The test of the `distinct_commits` comprehension: the commit is
marked distinct and its message is non-blank (`commit['distinct'] and
len(commit['message'].strip()) > 0`, with the message read only when
the mark is truthy). -/
def distinctCommitKeep (c : J) : Except PyErr Bool := do
  let d ← getItem c (str "distinct")
  if pyTruthy d then do
    let m ← asStr (← getItem c (str "message"))
    pure (!(pyStrip m).isEmpty)
  else pure false

/-- The comprehension body of `get_distinct_commits`. -/
def filterCommits : List J → Except PyErr (List J)
  | [] => .ok []
  | c :: rest => do
      let keep ← distinctCommitKeep c
      let tail ← filterCommits rest
      pure (if keep then c :: tail else tail)

/-- `get_distinct_commits(payload)`: a cached `distinct_commits` member
is returned as-is; otherwise the distinct, non-blank commits of
`payload['commits']` are collected.  Iterating a non-list raises (a
string or dict would iterate in Python, but its elements would fail the
subscript inside the loop with the same `TypeError`). -/
def get_distinct_commits (payload : J) : Except PyErr J := do
  if payload.containsKey (str "distinct_commits") then
    getItem payload (str "distinct_commits")
  else do
    let commits ← getItem payload (str "commits")
    match commits with
    | .arr cs => do
        let kept ← filterCommits cs
        pure (.arr kept)
    | _ => .error .typeError

/-- `re.sub(r'^refs/(heads|tags)/', '', ref)`: strip one leading ref
namespace. -/
def stripRefsPrefix (s : Str) : Str :=
  if (str "refs/heads/").isPrefixOf s then s.drop 11
  else if (str "refs/tags/").isPrefixOf s then s.drop 10
  else s

/-- `get_ref_name(payload)`. -/
def get_ref_name (payload : J) : Except PyErr Str := do
  let r ← asStr (← getItem payload (str "ref"))
  pure (stripRefsPrefix r)

/-- `get_base_ref_name(payload)`. -/
def get_base_ref_name (payload : J) : Except PyErr Str := do
  let r ← asStr (← getItem payload (str "base_ref"))
  pure (stripRefsPrefix r)

/-- `get_pusher(payload)`: the pusher name, `"somebody"` when the
payload has no `pusher` member. -/
def get_pusher (payload : J) : Except PyErr Str := do
  if payload.containsKey (str "pusher") then do
    let p ← getItem payload (str "pusher")
    asStr (← getItem p (str "name"))
  else pure (str "somebody")

/-- `get_repo_name(payload)`. -/
def get_repo_name (payload : J) : Except PyErr Str := do
  let repo ← getItem payload (str "repository")
  asStr (← getItem repo (str "name"))

/-- `get_after_sha(payload)`: `payload['after'][0:7]`. -/
def get_after_sha (payload : J) : Except PyErr Str := do
  let a ← asStr (← getItem payload (str "after"))
  pure (a.take 7)

/-- `get_before_sha(payload)`: `payload['before'][0:7]`. -/
def get_before_sha (payload : J) : Except PyErr Str := do
  let b ← asStr (← getItem payload (str "before"))
  pure (b.take 7)

/-- `re.match(r'0{40}', s)`: the first 40 characters exist and are
zeros (`re.match` anchors at the start only). -/
def matchZeros40 (s : Str) : Bool :=
  40 ≤ s.length && (s.take 40).all (fun c => c == '0')

/-- `' '.join(message)`. -/
def joinSpace : List Str → Str
  | [] => []
  | [x] => x
  | x :: y :: rest => x ++ ' ' :: joinSpace (y :: rest)

/-- `get_push_summary_url(payload)`: the link appended to the push
summary.  The returned value feeds `fmt_url`, whose colour-wrapping
join requires a string; the conversion is checked at the return sites. -/
def get_push_summary_url (payload : J) : Except PyErr Str := do
  let repo ← getItem payload (str "repository")
  let repoUrl ← getItem repo (str "url")
  let created ← getItem payload (str "created")
  let cond1 ←
    if pyTruthy created then pure true
    else do
      let before ← asStr (← getItem payload (str "before"))
      pure (matchZeros40 before)
  if cond1 then do
    let dc ← get_distinct_commits payload
    let n ← pyLen dc
    if n < 0 then do
      let ru ← asStr repoUrl
      let rn ← get_ref_name payload
      pure (ru ++ str "/commits/" ++ rn)
    else
      asStr (← getItem payload (str "compare"))
  else do
    let deleted ← getItem payload (str "deleted")
    if pyTruthy deleted then do
      let ru ← asStr repoUrl
      let bs ← get_before_sha payload
      pure (ru ++ str "/commit/" ++ bs)
    else do
      let forced ← getItem payload (str "forced")
      if pyTruthy forced then do
        let ru ← asStr repoUrl
        let rn ← get_ref_name payload
        pure (ru ++ str "/commits/" ++ rn)
      else do
        let dc ← get_distinct_commits payload
        let n ← pyLen dc
        if n = 1 then do
          let first ← getIndex dc 0
          asStr (← getItem first (str "url"))
        else
          asStr (← getItem payload (str "compare"))

/-- `fmt_push_summary_message(payload, row)`: the branch/tag
creation-deletion-force-merge-push case split, joined by single
spaces after the `"[repo] pusher"` prefix. -/
def fmt_push_summary_message (payload : J) (row : GhHookRow) : Except PyErr Str := do
  let rname ← get_repo_name payload
  let pusher ← get_pusher payload
  let first := str "[" ++ fmt_repo rname row ++ str "] " ++ fmt_name pusher row
  let created ← getItem payload (str "created")
  let cond1 ←
    if pyTruthy created then pure true
    else do
      let before ← asStr (← getItem payload (str "before"))
      pure (matchZeros40 before)
  let parts ←
    if cond1 then do
      let ref ← asStr (← getItem payload (str "ref"))
      if (str "refs/tags/").isPrefixOf ref then do
        let rn ← get_ref_name payload
        let baseRef ← getItem payload (str "base_ref")
        let seg ←
          if pyTruthy baseRef then do
            let b ← get_base_ref_name payload
            pure (fmt_branch b row)
          else do
            let a ← get_after_sha payload
            pure (fmt_hash a row)
        pure [str "tagged " ++ fmt_tag rn row ++ str " at", seg]
      else do
        let rn ← get_ref_name payload
        let baseRef ← getItem payload (str "base_ref")
        let mid ←
          if pyTruthy baseRef then do
            let b ← get_base_ref_name payload
            pure [str "from " ++ fmt_branch b row]
          else do
            let dc ← get_distinct_commits payload
            let n ← pyLen dc
            if n = 0 then do
              let a ← get_after_sha payload
              pure [str "at " ++ fmt_hash a row]
            else pure []
        let dc2 ← get_distinct_commits payload
        let num ← pyLen dc2
        pure ([str "created " ++ fmt_branch rn row] ++ mid ++
              [str "(+\x02" ++ natStr num ++ str "\x0f new commit" ++
               (if 1 < num then str "s" else []) ++ str ")"])
    else do
      let deleted ← getItem payload (str "deleted")
      let cond2 ←
        if pyTruthy deleted then pure true
        else do
          let after ← asStr (← getItem payload (str "after"))
          pure (matchZeros40 after)
      if cond2 then do
        let rn ← get_ref_name payload
        let b ← get_before_sha payload
        pure [str "\x0304deleted\x0f " ++ fmt_branch rn row ++ str " at " ++ fmt_hash b row]
      else do
        let forced ← getItem payload (str "forced")
        if pyTruthy forced then do
          let rn ← get_ref_name payload
          let b ← get_before_sha payload
          let a ← get_after_sha payload
          pure [str "\x0304force-pushed\x0f " ++ fmt_branch rn row ++ str " from " ++
                fmt_hash b row ++ str " to " ++ fmt_hash a row]
        else do
          let commits ← getItem payload (str "commits")
          let ncommits ← pyLen commits
          let cond4 ←
            if 0 < ncommits then do
              let dc ← get_distinct_commits payload
              let n ← pyLen dc
              pure (n == 0)
            else pure false
          if cond4 then do
            let baseRef ← getItem payload (str "base_ref")
            if pyTruthy baseRef then do
              let b ← get_base_ref_name payload
              let rn ← get_ref_name payload
              pure [str "merged " ++ fmt_branch b row ++ str " into " ++ fmt_branch rn row]
            else do
              let rn ← get_ref_name payload
              let b ← get_before_sha payload
              let a ← get_after_sha payload
              pure [str "fast-forwarded " ++ fmt_branch rn row ++ str " from " ++
                    fmt_hash b row ++ str " to " ++ fmt_hash a row]
          else do
            let dc ← get_distinct_commits payload
            let num ← pyLen dc
            let rn ← get_ref_name payload
            pure [str "pushed \x02" ++ natStr num ++ str "\x0f new commit" ++
                  (if 1 < num then str "s" else []) ++ str " to " ++ fmt_branch rn row]
  pure (joinSpace (first :: parts))

/-- `fmt_commit_message(commit)`: the one-line summary of a distinct
commit, an ellipsis marking a multi-line message. -/
def fmt_commit_message (payload : J) (row : GhHookRow) (commit : J) : Except PyErr Str := do
  let msg ← asStr (← getItem commit (str "message"))
  match pySplitlines msg with
  | [] => .error .indexError
  | l0 :: _ => do
      let short := if l0 ≠ msg then l0 ++ str "…" else l0
      let authorObj ← getItem commit (str "author")
      let author ← asStr (← getItem authorObj (str "name"))
      let sha ← asStr (← getItem commit (str "id"))
      let rname ← get_repo_name payload
      let rn ← get_ref_name payload
      pure (fmt_repo rname row ++ str "/" ++ fmt_branch rn row ++ str " " ++
            fmt_hash (sha.take 7) row ++ str " " ++ fmt_name author row ++ str ": " ++ short)

/-- `fmt_commit_comment_summary(payload, row)`. -/
def fmt_commit_comment_summary (payload : J) (row : GhHookRow) : Except PyErr Str := do
  let comment ← getItem payload (str "comment")
  let body ← getItem comment (str "body")
  let short ← fmt_short_comment_body body
  let rname ← get_repo_name payload
  let sender ← getItem payload (str "sender")
  let login ← asStr (← getItem sender (str "login"))
  let comment2 ← getItem payload (str "comment")
  let cid ← asStr (← getItem comment2 (str "commit_id"))
  pure (str "[" ++ fmt_repo rname row ++ str "] " ++ fmt_name login row ++
        str " commented on commit " ++ fmt_hash (cid.take 7) row ++ str ": " ++ emojize short)

/-- `fmt_issue_summary_message(payload)`. -/
def fmt_issue_summary_message (payload : J) (row : GhHookRow) : Except PyErr Str := do
  let rname ← get_repo_name payload
  let sender ← getItem payload (str "sender")
  let login ← asStr (← getItem sender (str "login"))
  let action ← getItem payload (str "action")
  let issue ← getItem payload (str "issue")
  let num ← getItem issue (str "number")
  let title ← getItem issue (str "title")
  pure (str "[" ++ fmt_repo rname row ++ str "] " ++ fmt_name login row ++ str " " ++
        pyFormatJ action ++ str " issue #" ++ pyFormatJ num ++ str ": " ++
        emojize (pyFormatJ title))

/-- `fmt_issue_incoming_transfer_message(payload)`. -/
def fmt_issue_incoming_transfer_message (payload : J) (row : GhHookRow) : Except PyErr Str := do
  let rname ← get_repo_name payload
  let changes ← getItem payload (str "changes")
  let oldRepo ← getItem changes (str "old_repository")
  let oldFull ← asStr (← getItem oldRepo (str "full_name"))
  let oldIssue ← getItem changes (str "old_issue")
  let oldNum ← getItem oldIssue (str "number")
  let issue ← getItem payload (str "issue")
  let user ← getItem issue (str "user")
  let authorLogin ← asStr (← getItem user (str "login"))
  let num ← getItem issue (str "number")
  let title ← getItem issue (str "title")
  pure (str "[" ++ fmt_repo rname row ++ str "] " ++ fmt_repo oldFull row ++ str "#" ++
        pyFormatJ oldNum ++ str " by " ++ fmt_name authorLogin row ++
        str " was transferred to issue #" ++ pyFormatJ num ++ str ": " ++
        emojize (pyFormatJ title))

/-- `fmt_issue_outgoing_transfer_message(payload)`. -/
def fmt_issue_outgoing_transfer_message (payload : J) (row : GhHookRow) : Except PyErr Str := do
  let rname ← get_repo_name payload
  let sender ← getItem payload (str "sender")
  let login ← asStr (← getItem sender (str "login"))
  let issue ← getItem payload (str "issue")
  let num ← getItem issue (str "number")
  let user ← getItem issue (str "user")
  let authorLogin ← asStr (← getItem user (str "login"))
  let changes ← getItem payload (str "changes")
  let newRepo ← getItem changes (str "new_repository")
  let newFull ← asStr (← getItem newRepo (str "full_name"))
  let newIssue ← getItem changes (str "new_issue")
  let newNum ← getItem newIssue (str "number")
  let title ← getItem issue (str "title")
  pure (str "[" ++ fmt_repo rname row ++ str "] " ++ fmt_name login row ++
        str " transferred issue #" ++ pyFormatJ num ++ str " by " ++
        fmt_name authorLogin row ++ str " to " ++ fmt_repo newFull row ++ str "#" ++
        pyFormatJ newNum ++ str ": " ++ emojize (pyFormatJ title))

/-- `fmt_issue_title_edit(payload)`. -/
def fmt_issue_title_edit (payload : J) (row : GhHookRow) : Except PyErr Str := do
  let rname ← get_repo_name payload
  let sender ← getItem payload (str "sender")
  let login ← asStr (← getItem sender (str "login"))
  let issue ← getItem payload (str "issue")
  let num ← getItem issue (str "number")
  let changes ← getItem payload (str "changes")
  let titleChange ← getItem changes (str "title")
  let oldTitle ← getItem titleChange (str "from")
  let title ← getItem issue (str "title")
  pure (str "[" ++ fmt_repo rname row ++ str "] " ++ fmt_name login row ++
        str " retitled issue #" ++ pyFormatJ num ++ str ": \"" ++
        emojize (pyFormatJ oldTitle) ++ str "\" ➜ \"" ++ emojize (pyFormatJ title) ++ str "\"")

/-- `get_issue_type(payload)`: `"pull request"` when the payload has a
`pull_request` member or the issue link points into `/pull/`. -/
def get_issue_type (payload : J) : Except PyErr Str := do
  let isPr ←
    if payload.containsKey (str "pull_request") then pure true
    else if payload.containsKey (str "issue") then do
      let issue ← getItem payload (str "issue")
      let hurl ← asStr (← getItem issue (str "html_url"))
      pure (strContains (str "/pull/") hurl)
    else pure false
  pure (if isPr then str "pull request" else str "issue")

/-- `get_issue_or_pr_number(payload)`: `payload['issue']['number']`
with a `KeyError` fallback to `payload['pull_request']['number']`
(only `KeyError` is caught, as in the source `try`/`except`). -/
def get_issue_or_pr_number (payload : J) : Except PyErr J :=
  match (do
      let issue ← getItem payload (str "issue")
      getItem issue (str "number") : Except PyErr J) with
  | .ok v => .ok v
  | .error .keyError => do
      let pr ← getItem payload (str "pull_request")
      getItem pr (str "number")
  | .error e => .error e

/-- `get_issue_or_pr_title(payload)`, same fallback shape. -/
def get_issue_or_pr_title (payload : J) : Except PyErr J :=
  match (do
      let issue ← getItem payload (str "issue")
      getItem issue (str "title") : Except PyErr J) with
  | .ok v => .ok v
  | .error .keyError => do
      let pr ← getItem payload (str "pull_request")
      getItem pr (str "title")
  | .error e => .error e

/-- `fmt_issue_assignee_message(payload)`. -/
def fmt_issue_assignee_message (payload : J) (row : GhHookRow) : Except PyErr Str := do
  let assigneeObj ← getItem payload (str "assignee")
  let assignee ← getItem assigneeObj (str "login")
  let sender0 ← getItem payload (str "sender")
  let senderLogin0 ← getItem sender0 (str "login")
  let selfAssign := pyEqJ assignee senderLogin0
  let target ←
    if selfAssign then pure ([] : Str)
    else do
      let action ← getItem payload (str "action")
      let prep := if jEqStr action (str "assigned") then str "to" else str "from"
      let aname ← asStr assignee
      pure (str " " ++ prep ++ str " " ++ fmt_name aname row)
  let rname ← get_repo_name payload
  let sender ← getItem payload (str "sender")
  let login ← asStr (← getItem sender (str "login"))
  let action2 ← getItem payload (str "action")
  let itype ← get_issue_type payload
  let num ← get_issue_or_pr_number payload
  let title ← get_issue_or_pr_title payload
  pure (str "[" ++ fmt_repo rname row ++ str "] " ++ fmt_name login row ++ str " " ++
        (if selfAssign then str "self-" else []) ++ pyFormatJ action2 ++ str " " ++ itype ++
        str " #" ++ pyFormatJ num ++ target ++ str " (" ++ pyFormatJ title ++ str ")")

/-- `fmt_issue_label_message(payload)`. -/
def fmt_issue_label_message (payload : J) (row : GhHookRow) : Except PyErr Str := do
  let rname ← get_repo_name payload
  let sender ← getItem payload (str "sender")
  let login ← asStr (← getItem sender (str "login"))
  let action ← getItem payload (str "action")
  let lab ← getItem payload (str "label")
  let labName ← getItem lab (str "name")
  let itype ← get_issue_type payload
  let num ← get_issue_or_pr_number payload
  let title ← get_issue_or_pr_title payload
  pure (str "[" ++ fmt_repo rname row ++ str "] " ++ fmt_name login row ++ str " " ++
        (if jEqStr action (str "labeled") then str "added" else str "removed") ++
        str " the label \x27" ++ pyFormatJ labName ++ str "\x27 " ++
        (if jEqStr action (str "labeled") then str "to" else str "from") ++ str " " ++
        itype ++ str " #" ++ pyFormatJ num ++ str " (" ++ pyFormatJ title ++ str ")")

/-- `fmt_issue_milestone_message(payload)`. -/
def fmt_issue_milestone_message (payload : J) (row : GhHookRow) : Except PyErr Str := do
  let action ← getItem payload (str "action")
  let added := jEqStr action (str "milestoned")
  let rname ← get_repo_name payload
  let sender ← getItem payload (str "sender")
  let login ← asStr (← getItem sender (str "login"))
  let itype ← get_issue_type payload
  let num ← get_issue_or_pr_number payload
  let title ← get_issue_or_pr_title payload
  let milestone ← getItem payload (str "milestone")
  let mtitle ← getItem milestone (str "title")
  pure (str "[" ++ fmt_repo rname row ++ str "] " ++ fmt_name login row ++ str " " ++
        (if added then str "added" else str "removed") ++ str " " ++ itype ++ str " #" ++
        pyFormatJ num ++ str " (" ++ pyFormatJ title ++ str ") " ++
        (if added then str "to" else str "from") ++ str " the " ++ pyFormatJ mtitle ++
        str " milestone")

/-- `fmt_issue_comment_summary_message(payload)`. -/
def fmt_issue_comment_summary_message (payload : J) (row : GhHookRow) : Except PyErr Str := do
  let itype ← get_issue_type payload
  let comment ← getItem payload (str "comment")
  let body ← getItem comment (str "body")
  let short ← fmt_short_comment_body body
  let rname ← get_repo_name payload
  let sender ← getItem payload (str "sender")
  let login ← asStr (← getItem sender (str "login"))
  let issue ← getItem payload (str "issue")
  let num ← getItem issue (str "number")
  pure (str "[" ++ fmt_repo rname row ++ str "] " ++ fmt_name login row ++
        str " commented on " ++ itype ++ str " #" ++ pyFormatJ num ++ str ": " ++
        emojize short)

/-- `fmt_pull_request_summary_message(payload)`: the display action is
remapped (`merged` / `drafted` / `readied` / `un-readied`), a merge by
a non-author renders the author possessively, and base/head branches
are qualified with their owning login when the repositories differ. -/
def fmt_pull_request_summary_message (payload : J) (row : GhHookRow) : Except PyErr Str := do
  let action0 ← getItem payload (str "action")
  let action ←
    if jEqStr action0 (str "closed") then do
      let pr ← getItem payload (str "pull_request")
      let merged ← getItem pr (str "merged")
      if pyTruthy merged then pure (str "merged") else pure (pyFormatJ action0)
    else if jEqStr action0 (str "opened") then do
      let pr ← getItem payload (str "pull_request")
      let draft ← J.getDefault pr (str "draft") (.bool false)
      if pyTruthy draft then pure (str "drafted") else pure (pyFormatJ action0)
    else if jEqStr action0 (str "ready_for_review") then pure (str "readied")
    else if jEqStr action0 (str "converted_to_draft") then pure (str "un-readied")
    else pure (pyFormatJ action0)
  let sender ← getItem payload (str "sender")
  let actor ← getItem sender (str "login")
  let pr ← getItem payload (str "pull_request")
  let user ← getItem pr (str "user")
  let author ← getItem user (str "login")
  let maybePossessive ←
    if action = str "merged" ∧ pyEqJ actor author = false then do
      let an ← asStr author
      pure (fmt_name an row ++ str "\x27s ")
    else pure ([] : Str)
  let base0 ← asStr (← getItem (← getItem pr (str "base")) (str "ref"))
  let head0 ← asStr (← getItem (← getItem pr (str "head")) (str "ref"))
  let baseUser ← getItem (← getItem pr (str "base")) (str "user")
  let baseRepo ← getItem baseUser (str "login")
  let headUser ← getItem (← getItem pr (str "head")) (str "user")
  let headRepo ← getItem headUser (str "login")
  let branches ←
    if pyEqJ baseRepo headRepo then pure (fmt_branch base0 row, fmt_branch head0 row)
    else do
      let brs ← asStr baseRepo
      let hrs ← asStr headRepo
      pure (fmt_name brs row ++ str ":" ++ fmt_branch base0 row,
            fmt_name hrs row ++ str ":" ++ fmt_branch head0 row)
  let rname ← get_repo_name payload
  let actorS ← asStr actor
  let num ← getItem pr (str "number")
  let title ← getItem pr (str "title")
  pure (str "[" ++ fmt_repo rname row ++ str "] " ++ fmt_name actorS row ++ str " " ++
        action ++ str " " ++ maybePossessive ++ str "pull request #" ++ pyFormatJ num ++
        str ": " ++ emojize (pyFormatJ title) ++ str " (" ++ branches.1 ++ str "..." ++
        branches.2 ++ str ")")

/-- `fmt_pull_request_title_edit(payload)`. -/
def fmt_pull_request_title_edit (payload : J) (row : GhHookRow) : Except PyErr Str := do
  let rname ← get_repo_name payload
  let sender ← getItem payload (str "sender")
  let login ← asStr (← getItem sender (str "login"))
  let pr ← getItem payload (str "pull_request")
  let num ← getItem pr (str "number")
  let changes ← getItem payload (str "changes")
  let titleChange ← getItem changes (str "title")
  let oldTitle ← getItem titleChange (str "from")
  let title ← getItem pr (str "title")
  pure (str "[" ++ fmt_repo rname row ++ str "] " ++ fmt_name login row ++
        str " retitled PR #" ++ pyFormatJ num ++ str ": \"" ++
        emojize (pyFormatJ oldTitle) ++ str "\" ➜ \"" ++ emojize (pyFormatJ title) ++ str "\"")

/-- `fmt_pull_request_review_summary_message(payload)`: the review
state picks the verb, and a truthy body is shortened and appended
after a colon. -/
def fmt_pull_request_review_summary_message (payload : J) (row : GhHookRow) :
    Except PyErr Str := do
  let review ← getItem payload (str "review")
  let state ← getItem review (str "state")
  let action : Str :=
    if jEqStr state (str "commented") then str "left a review on"
    else if jEqStr state (str "changes_requested") then str "requested changes on"
    else pyFormatJ state
  let review2 ← getItem payload (str "review")
  let body ← getItem review2 (str "body")
  let short ←
    if pyTruthy body then do
      let s ← fmt_short_comment_body body
      pure (str ": " ++ s)
    else pure ([] : Str)
  let rname ← get_repo_name payload
  let sender ← getItem payload (str "sender")
  let login ← asStr (← getItem sender (str "login"))
  let pr ← getItem payload (str "pull_request")
  let num ← getItem pr (str "number")
  pure (str "[" ++ fmt_repo rname row ++ str "] " ++ fmt_name login row ++ str " " ++
        action ++ str " pull request #" ++ pyFormatJ num ++ emojize short)

/-- `fmt_pull_request_review_dismissal_message(payload)`. -/
def fmt_pull_request_review_dismissal_message (payload : J) (row : GhHookRow) :
    Except PyErr Str := do
  let sender ← getItem payload (str "sender")
  let senderLogin ← getItem sender (str "login")
  let review ← getItem payload (str "review")
  let ruser ← getItem review (str "user")
  let rlogin ← getItem ruser (str "login")
  let whose ←
    if pyEqJ senderLogin rlogin then pure (str "their")
    else do
      let rl ← asStr rlogin
      pure (fmt_name rl row ++ str "\x27s")
  let rname ← get_repo_name payload
  let login ← asStr senderLogin
  let pr ← getItem payload (str "pull_request")
  let num ← getItem pr (str "number")
  pure (str "[" ++ fmt_repo rname row ++ str "] " ++ fmt_name login row ++
        str " dismissed " ++ whose ++ str " review on pull request #" ++ pyFormatJ num)

/-- `fmt_pull_request_review_comment_summary_message(payload)`. -/
def fmt_pull_request_review_comment_summary_message (payload : J) (row : GhHookRow) :
    Except PyErr Str := do
  let comment ← getItem payload (str "comment")
  let body ← getItem comment (str "body")
  let short ← fmt_short_comment_body body
  let sha1 ← asStr (← getItem comment (str "commit_id"))
  let rname ← get_repo_name payload
  let sender ← getItem payload (str "sender")
  let login ← asStr (← getItem sender (str "login"))
  let pr ← getItem payload (str "pull_request")
  let num ← getItem pr (str "number")
  pure (str "[" ++ fmt_repo rname row ++ str "] " ++ fmt_name login row ++
        str " left a file comment in pull request #" ++ pyFormatJ num ++ str " " ++
        fmt_hash (sha1.take 7) row ++ str ": " ++ emojize short)

/-- The first loop of the multi-page `gollum` branch reads each page's
`action` while building the `counts` dict. -/
def gollumPageActions : List J → Except PyErr (List J)
  | [] => .ok []
  | p :: rest => do
      let a ← getItem p (str "action")
      let as ← gollumPageActions rest
      pure (a :: as)

/-- `fmt_gollum_summary_message(payload)`: one page renders a line
(returned as a string value); several pages raise — the second loop's
`action + " " + count` concatenates a string with an integer count
(and `fmt_arr_to_sentence(actions.sort())` would be handed the `None`
returned by `list.sort` were it ever reached); no page falls through
both branches and returns `None`. -/
def fmt_gollum_summary_message (payload : J) (row : GhHookRow) : Except PyErr J := do
  let pages ← getItem payload (str "pages")
  let n ← pyLen pages
  if n = 1 then do
    let p0 ← getIndex pages 0
    let summary ←
      if p0.containsKey (str "summary") then getItem p0 (str "summary")
      else pure J.null
    let rname ← get_repo_name payload
    let sender ← getItem payload (str "sender")
    let login ← asStr (← getItem sender (str "login"))
    let p0a ← getIndex pages 0
    let pact ← getItem p0a (str "action")
    let ptitle ← getItem p0a (str "title")
    let tailPart ←
      if pyTruthy summary then do
        let s ← asStr summary
        pure (str ": " ++ s)
      else pure ([] : Str)
    pure (J.str (str "[" ++ fmt_repo rname row ++ str "] " ++ fmt_name login row ++
          str " " ++ pyFormatJ pact ++ str " wiki page " ++ pyFormatJ ptitle ++ tailPart))
  else if 1 < n then
    match pages with
    | .arr ps => do
        let _ ← gollumPageActions ps
        .error .typeError
    | _ => .error .typeError
  else
    pure J.null

/-- `fmt_arr_to_sentence(seq)`: an Oxford-comma join (defined for the
list of strings the dead call site means to pass). -/
def fmt_arr_to_sentence (seq : List Str) : Str :=
  if seq.length ≤ 2 then List.intercalate (str " and ") seq
  else List.intercalate (str ", ") seq.dropLast ++ str ", and " ++ seq.getLastD []

/-- `fmt_watch_message(payload)`. -/
def fmt_watch_message (payload : J) (row : GhHookRow) : Except PyErr Str := do
  let rname ← get_repo_name payload
  let sender ← getItem payload (str "sender")
  let login ← asStr (← getItem sender (str "login"))
  pure (str "[" ++ fmt_repo rname row ++ str "] " ++ fmt_name login row ++
        str " starred the project!")

/-- The branch-name scan of `fmt_status_message`: the last branch whose
commit sha equals the payload sha wins; the accumulator starts as the
empty string. -/
def statusBranchScan (payload : J) : List J → J → Except PyErr J
  | [], acc => .ok acc
  | br :: rest, acc => do
      let c ← getItem br (str "commit")
      let s ← getItem c (str "sha")
      let psha ← getItem payload (str "sha")
      let acc2 ← if pyEqJ s psha then getItem br (str "name") else pure acc
      statusBranchScan payload rest acc2

/-- `fmt_status_message(payload)`. -/
def fmt_status_message (payload : J) (row : GhHookRow) : Except PyErr Str := do
  let branches ← getItem payload (str "branches")
  let branch ←
    match branches with
    | .arr bs => statusBranchScan payload bs (.str [])
    | _ => .error .typeError
  let rname ← get_repo_name payload
  let bs ← asStr branch
  let desc ← getItem payload (str "description")
  let turl ← getItem payload (str "target_url")
  let st ← getItem payload (str "state")
  pure (str "[" ++ fmt_repo rname row ++ str "/" ++ fmt_branch bs row ++ str "] " ++
        pyFormatJ desc ++ str " - " ++ pyFormatJ turl ++ str " (" ++ pyFormatJ st ++ str ")")

/-- `fmt_release_message(payload)`. -/
def fmt_release_message (payload : J) (row : GhHookRow) : Except PyErr Str := do
  let rname ← get_repo_name payload
  let release ← getItem payload (str "release")
  let authorObj ← getItem release (str "author")
  let login ← asStr (← getItem authorObj (str "login"))
  let nm ← getItem release (str "name")
  let label ← if pyTruthy nm then pure nm else getItem release (str "tag_name")
  let pre ← getItem release (str "prerelease")
  pure (str "[" ++ fmt_repo rname row ++ str "] " ++ fmt_name login row ++
        str " released " ++ pyFormatJ label ++
        (if pyTruthy pre then str " (prerelease)" else []))

/-- `re.match('((re)?open|clos)ed', action)`: prefix match of
`opened`, `reopened` or `closed`. -/
def matchOpenedClosed (action : Str) : Bool :=
  (str "opened").isPrefixOf action || (str "reopened").isPrefixOf action ||
  (str "closed").isPrefixOf action

/-- `re.match('(assigned|unassigned)', action)`. -/
def matchAssigned (action : Str) : Bool :=
  (str "assigned").isPrefixOf action || (str "unassigned").isPrefixOf action

/-- `re.match('(labeled|unlabeled)', action)`. -/
def matchLabeled (action : Str) : Bool :=
  (str "labeled").isPrefixOf action || (str "unlabeled").isPrefixOf action

/-- `re.match('(milestoned|demilestoned)', action)`. -/
def matchMilestoned (action : Str) : Bool :=
  (str "milestoned").isPrefixOf action || (str "demilestoned").isPrefixOf action

/-- The per-commit loop of the `push` branch of
`get_formatted_response`. -/
def mapFmtCommits (payload : J) (row : GhHookRow) : List J → Except PyErr (List Str)
  | [] => .ok []
  | c :: rest => do
      let m ← fmt_commit_message payload row c
      let ms ← mapFmtCommits payload row rest
      pure (m :: ms)

/-- `get_formatted_response(payload, row)`: the event/action dispatch
of `sopel_github/formatting.py`, selecting a formatter (or none) for
the payload and appending the event link; an unmatched event or action
produces the empty message list. -/
def get_formatted_response (payload : J) (row : GhHookRow) : Except PyErr (List Str) := do
  let event ← getItem payload (str "event")
  if jEqStr event (str "push") then do
    let m ← fmt_push_summary_message payload row
    let u ← get_push_summary_url payload
    let first := m ++ str " " ++ fmt_url u row
    let dc ← get_distinct_commits payload
    match dc with
    | .arr cs => do
        let rest ← mapFmtCommits payload row cs
        pure (first :: rest)
    | _ => .error .typeError
  else if jEqStr event (str "commit_comment") then do
    let m ← fmt_commit_comment_summary payload row
    let comment ← getItem payload (str "comment")
    let hu ← asStr (← getItem comment (str "html_url"))
    pure [m ++ str " " ++ fmt_url hu row]
  else if jEqStr event (str "pull_request") then do
    let action ← asStr (← getItem payload (str "action"))
    if matchOpenedClosed action || action = str "ready_for_review" ||
        action = str "converted_to_draft" then do
      let m ← fmt_pull_request_summary_message payload row
      let pr ← getItem payload (str "pull_request")
      let hu ← asStr (← getItem pr (str "html_url"))
      pure [m ++ str " " ++ fmt_url hu row]
    else if action = str "edited" then
      if payload.containsKey (str "changes") then do
        let changes ← getItem payload (str "changes")
        if changes.containsKey (str "title") then do
          let m ← fmt_pull_request_title_edit payload row
          let pr ← getItem payload (str "pull_request")
          let hu ← asStr (← getItem pr (str "html_url"))
          pure [m ++ str " " ++ fmt_url hu row]
        else pure []
      else pure []
    else if matchAssigned action then do
      let m ← fmt_issue_assignee_message payload row
      let pr ← getItem payload (str "pull_request")
      let hu ← asStr (← getItem pr (str "html_url"))
      pure [m ++ str " " ++ fmt_url hu row]
    else if matchLabeled action then do
      let lab ← J.getDefault payload (str "label") J.null
      if pyTruthy lab then do
        let m ← fmt_issue_label_message payload row
        let pr ← getItem payload (str "pull_request")
        let hu ← asStr (← getItem pr (str "html_url"))
        pure [m ++ str " " ++ fmt_url hu row]
      else pure []
    else pure []
  else if jEqStr event (str "pull_request_review") then do
    let action ← getItem payload (str "action")
    let cond1 ←
      if jEqStr action (str "submitted") then do
        let review ← getItem payload (str "review")
        let state ← getItem review (str "state")
        pure (jEqStr state (str "approved") || jEqStr state (str "changes_requested") ||
              jEqStr state (str "commented"))
      else pure false
    if cond1 then do
      let review ← getItem payload (str "review")
      let state ← getItem review (str "state")
      let cond2 ←
        if jEqStr state (str "commented") then do
          let review2 ← getItem payload (str "review")
          let body ← getItem review2 (str "body")
          pure body.isNull
        else pure false
      if cond2 then pure []
      else do
        let m ← fmt_pull_request_review_summary_message payload row
        let review3 ← getItem payload (str "review")
        let hu ← asStr (← getItem review3 (str "html_url"))
        pure [m ++ str " " ++ fmt_url hu row]
    else do
      if jEqStr action (str "dismissed") then do
        let m ← fmt_pull_request_review_dismissal_message payload row
        let review ← getItem payload (str "review")
        let hu ← asStr (← getItem review (str "html_url"))
        pure [m ++ str " " ++ fmt_url hu row]
      else pure []
  else if jEqStr event (str "pull_request_review_comment") then do
    let action ← getItem payload (str "action")
    if jEqStr action (str "created") then do
      let m ← fmt_pull_request_review_comment_summary_message payload row
      let comment ← getItem payload (str "comment")
      let hu ← asStr (← getItem comment (str "html_url"))
      pure [m ++ str " " ++ fmt_url hu row]
    else pure []
  else if jEqStr event (str "issues") then do
    let action ← asStr (← getItem payload (str "action"))
    if matchOpenedClosed action then do
      let isTransfer ←
        if payload.containsKey (str "changes") then do
          let changes ← getItem payload (str "changes")
          pure (changes.containsKey (str "old_repository") &&
                changes.containsKey (str "old_issue"))
        else pure false
      if isTransfer then do
        let m ← fmt_issue_incoming_transfer_message payload row
        let issue ← getItem payload (str "issue")
        let hu ← asStr (← getItem issue (str "html_url"))
        pure [m ++ str " " ++ fmt_url hu row]
      else do
        let m ← fmt_issue_summary_message payload row
        let issue ← getItem payload (str "issue")
        let hu ← asStr (← getItem issue (str "html_url"))
        pure [m ++ str " " ++ fmt_url hu row]
    else if matchAssigned action then do
      let m ← fmt_issue_assignee_message payload row
      let issue ← getItem payload (str "issue")
      let hu ← asStr (← getItem issue (str "html_url"))
      pure [m ++ str " " ++ fmt_url hu row]
    else if matchLabeled action then do
      let lab ← J.getDefault payload (str "label") J.null
      if pyTruthy lab then do
        let m ← fmt_issue_label_message payload row
        let issue ← getItem payload (str "issue")
        let hu ← asStr (← getItem issue (str "html_url"))
        pure [m ++ str " " ++ fmt_url hu row]
      else pure []
    else if matchMilestoned action then do
      let m ← fmt_issue_milestone_message payload row
      let issue ← getItem payload (str "issue")
      let hu ← asStr (← getItem issue (str "html_url"))
      pure [m ++ str " " ++ fmt_url hu row]
    else if action = str "edited" then
      if payload.containsKey (str "changes") then do
        let changes ← getItem payload (str "changes")
        if changes.containsKey (str "title") then do
          let m ← fmt_issue_title_edit payload row
          let issue ← getItem payload (str "issue")
          let hu ← asStr (← getItem issue (str "html_url"))
          pure [m ++ str " " ++ fmt_url hu row]
        else pure []
      else pure []
    else if action = str "transferred" then do
      let m ← fmt_issue_outgoing_transfer_message payload row
      let changes ← getItem payload (str "changes")
      let newIssue ← getItem changes (str "new_issue")
      let hu ← asStr (← getItem newIssue (str "html_url"))
      pure [m ++ str " " ++ fmt_url hu row]
    else pure []
  else if jEqStr event (str "issue_comment") then do
    let action ← getItem payload (str "action")
    if jEqStr action (str "created") then do
      let m ← fmt_issue_comment_summary_message payload row
      let comment ← getItem payload (str "comment")
      let hu ← asStr (← getItem comment (str "html_url"))
      pure [m ++ str " " ++ fmt_url hu row]
    else pure []
  else if jEqStr event (str "gollum") then do
    let pages ← getItem payload (str "pages")
    let n ← pyLen pages
    let url ←
      if n ≠ 0 then do
        let p0 ← getIndex pages 0
        asStr (← getItem p0 (str "html_url"))
      else do
        let repo ← getItem payload (str "repository")
        let ru ← asStr (← getItem repo (str "url"))
        pure (ru ++ str "/wiki")
    let m ← fmt_gollum_summary_message payload row
    match m with
    | .str s => pure [s ++ str " " ++ fmt_url url row]
    | _ => .error .typeError
  else if jEqStr event (str "watch") then do
    let m ← fmt_watch_message payload row
    pure [m]
  else if jEqStr event (str "status") then do
    let m ← fmt_status_message payload row
    pure [m]
  else if jEqStr event (str "release") then do
    let action ← getItem payload (str "action")
    if jEqStr action (str "published") then do
      let m ← fmt_release_message payload row
      let release ← getItem payload (str "release")
      let hu ← asStr (← getItem release (str "html_url"))
      pure [m ++ str " " ++ fmt_url hu row]
    else pure []
  else pure []

/-- Why a request is rejected by `verify` (§4.1 of the specification). -/
inductive RejectReason where
  | missing_signature
  | unsupported_digest
  | signature_mismatch
deriving DecidableEq

/-- Outcome of `verify`: `Authenticated`, or `Rejected` with the HTTP
status the webhook endpoint answers with (§7). -/
inductive VerifyResult where
  | authenticated
  | rejected (status : Nat) (reason : RejectReason)
deriving DecidableEq

/-- Modelled from the spec: `sopel_github/webhook.py` — the final
webhook variant that `sopel_github/plugin.py` imports — is not among
the provided sources, and the legacy `sopel_modules` variant has no
authentication at all; §4.1/§7 of the specification describe the
missing signature verification.  `digests` maps each supported digest
name to its keyed-hash function over `(secret, body)` (hash internals
abstracted); the signature header has the form
`"<digestName>=<hexDigest>"` and is compared against the recomputed
digest.  Missing header → 401, unknown digest name → 501,
mismatching digest → 403. -/
def verify (digests : List (Str × (Str → Str → Str))) (secret body : Str)
    (signatureHeader : Option Str) : VerifyResult :=
  match signatureHeader with
  | none => .rejected 401 .missing_signature
  | some h =>
      let digestName := h.takeWhile (fun c => !(c == '='))
      let hexDigest := (h.dropWhile (fun c => !(c == '='))).drop 1
      match lookupPairs digests digestName with
      | none => .rejected 501 .unsupported_digest
      | some mac =>
          if mac secret body == hexDigest then .authenticated
          else .rejected 403 .signature_mismatch

/-- The observable outcome of one webhook POST: the HTTP status and the
(channel, line) deliveries performed. -/
structure WebhookReply where
  status : Nat
  delivered : List (Str × Str)

/-- Modelled from the spec: the authentication gate of the webhook POST
handler (absent from the provided sources, see `verify`).  With a
configured secret, `verify` runs before anything touches the payload;
a rejection becomes the HTTP error response and the `process`
continuation — parse, classify, format, deliver — is never consulted.
Authentication is opt-in: with no secret configured the verifier is not
invoked. -/
def webhookPost (digests : List (Str × (Str → Str → Str))) (secret : Option Str)
    (signatureHeader : Option Str) (body : Str)
    (process : Str → WebhookReply) : WebhookReply :=
  match secret with
  | none => process body
  | some sec =>
      match verify digests sec body signatureHeader with
      | .authenticated => process body
      | .rejected status _ => { status := status, delivered := [] }

/-- One observable action of the webhook dispatcher, in emission
order. -/
inductive DispatchEvent where
  | respond (body : Str)
  | deliver (channel : Str) (line : Str)
deriving DecidableEq

/-- Whether a dispatcher action is a chat delivery. -/
def DispatchEvent.isDeliver : DispatchEvent → Bool
  | .deliver _ _ => true
  | _ => false

/-- `json.dumps` of a list of plain channel names (string escaping not
modelled; channel identifiers carry no quotes or backslashes). -/
def jsonStringList (xs : List Str) : Str :=
  str "[" ++ List.intercalate (str ", ") (xs.map (fun c => '"' :: (c ++ ['"']))) ++ str "]"

/-- The acknowledgment body
`'\x7b"channels":' + json.dumps([row[0] for row in targets]) + '\x7d'`. -/
def ackBody (channels : List Str) : Str :=
  str "\x7b\"channels\":" ++ jsonStringList channels ++ str "\x7d"

/-- Modelled from the spec: the final webhook handler (absent from the
provided sources; the legacy variant delivers synchronously) resolves
the subscriber rows, hands formatting and delivery to a detached
background thread, and returns the acknowledgment listing the resolved
channels at once, so the HTTP response is emitted before formatting or
delivery completes (§4.5/§5).  The model records the observable actions
in emission order: the response first, then the background deliveries,
channel by channel in the order formatted. -/
def webhookDispatch (targets : List GhHookRow)
    (fmtFor : GhHookRow → List Str) : List DispatchEvent :=
  DispatchEvent.respond (ackBody (targets.map (fun row => row.channel))) ::
    (targets.map (fun row =>
      (fmtFor row).map (fun line => DispatchEvent.deliver row.channel line))).flatten

/-- The subscription row with the default colours of the `gh_hooks`
schema (`url 2, tag 6, repo 13, name 15, hash 14, branch 6`). -/
def defaultRow : GhHookRow :=
  ⟨str "#chan", str "owner/repo", true, 2, 6, 13, 15, 14, 6⟩

/-- A subscription row whose colour numbers are all `0`: `color` treats
a falsy colour as "no colouring", so rendered fragments stay plain. -/
def plainRow : GhHookRow :=
  ⟨str "#chan", str "owner/repo", true, 0, 0, 0, 0, 0, 0⟩

/-- Forty `'0'` characters, the null `before`/`after` sha of a
ref-creating or ref-deleting push. -/
def zeros40 : Str := List.replicate 40 '0'

/-- A `pull_request_review` payload of the shape delivered for a
submitted review, the review state and body left as parameters. -/
def review_payload (state body : J) (repoName login : Str) (num : J)
    (htmlUrl : Str) : J :=
  .obj [(str "event", .str (str "pull_request_review")),
        (str "action", .str (str "submitted")),
        (str "repository", .obj [(str "name", .str repoName)]),
        (str "sender", .obj [(str "login", .str login)]),
        (str "pull_request", .obj [(str "number", num)]),
        (str "review", .obj [(str "state", state), (str "body", body),
                             (str "html_url", .str htmlUrl)])]

/-- A push payload with the fields `fmt_push_summary_message` and
`get_push_summary_url` read. -/
def push_payload (repoName repoUrl pusher ref before after : Str)
    (created deleted forced : Bool) (baseRef : J) (commits : List J)
    (compareUrl : Str) : J :=
  .obj [(str "event", .str (str "push")),
        (str "repository", .obj [(str "name", .str repoName),
                                 (str "url", .str repoUrl)]),
        (str "pusher", .obj [(str "name", .str pusher)]),
        (str "ref", .str ref),
        (str "before", .str before),
        (str "after", .str after),
        (str "created", .bool created),
        (str "deleted", .bool deleted),
        (str "forced", .bool forced),
        (str "base_ref", baseRef),
        (str "commits", .arr commits),
        (str "compare", .str compareUrl)]

/-- A commit object of a push payload. -/
def commit_payload (id message author url : Str) (distinct : Bool) : J :=
  .obj [(str "id", .str id), (str "message", .str message),
        (str "author", .obj [(str "name", .str author)]),
        (str "distinct", .bool distinct), (str "url", .str url)]

/-- A payload whose event and action are fixed and whose remaining
members (`rest` — possibly holding a `label`) are arbitrary. -/
def label_payload (ev act : Str) (rest : List (Str × J)) : J :=
  .obj ((str "event", .str ev) :: (str "action", .str act) :: rest)

/-- A `gollum` (wiki) payload with the given pages list; the remaining
members (`rest` — repository, sender, …) are arbitrary. -/
def gollum_payload (pages : List J) (rest : List (Str × J)) : J :=
  .obj ((str "event", .str (str "gollum")) :: (str "pages", .arr pages) :: rest)

end SopelGithub

namespace SopelGithub

/-! ## Theorems

General lemmas first, then one theorem per claim (with its witness or
counterexample). -/

/-- Bind of a successful `Except` step. -/
theorem ebind_ok {α β : Type} (a : α) (f : α → Except PyErr β) :
    (Except.ok a >>= f : Except PyErr β) = f a := rfl

/-- Bind of a failed `Except` step. -/
theorem ebind_err {α β : Type} (e : PyErr) (f : α → Except PyErr β) :
    (Except.error e >>= f : Except PyErr β) = .error e := rfl

/-- Pure value of the `Except` monad. -/
theorem epure {α : Type} (a : α) : (pure a : Except PyErr α) = .ok a := rfl

/-- Splitting a well-formed `name=digest` header at the first `'='`:
when the digest name itself contains no `'='`, `takeWhile`/`dropWhile`
recover the two parts. -/
theorem splitEq_parts (name sig : Str) (h : '=' ∉ name) :
    (name ++ '=' :: sig).takeWhile (fun c => !(c == '=')) = name ∧
    ((name ++ '=' :: sig).dropWhile (fun c => !(c == '='))).drop 1 = sig := by
  induction name with
  | nil => simp [List.takeWhile, List.dropWhile]
  | cons c cs ih =>
    simp only [List.mem_cons, not_or] at h
    obtain ⟨h1, h2⟩ := h
    have hc : (!(c == '=')) = true := by
      simpa using fun hcc => h1 hcc.symm
    obtain ⟨ht, hd⟩ := ih h2
    refine ⟨?_, ?_⟩
    · rw [List.cons_append, List.takeWhile_cons, hc]
      simp [ht]
    · rw [List.cons_append, List.dropWhile_cons]
      simp only [hc, if_true]
      exact hd

/-- C1: with a webhook secret configured, `verify` authenticates
exactly the requests whose signature header is `name=digest` for a
supported digest `name` with `digest` the keyed hash of the raw body;
a missing header is rejected with HTTP 401, an unsupported digest name
with 501, a mismatching digest with 403, and for every rejected request
the payload-processing continuation is never consulted (the reply
carries the rejection status and no deliveries).  The webhook source
file is absent from the provided tree, so `verify`/`webhookPost` are
modelled from the specification (§4.1, §7). -/
theorem c1_verify_contract
    (digests : List (Str × (Str → Str → Str))) (secret body : Str) :
    (verify digests secret body none = .rejected 401 .missing_signature) ∧
    (∀ (name sig : Str), '=' ∉ name → lookupPairs digests name = none →
      verify digests secret body (some (name ++ '=' :: sig)) =
        .rejected 501 .unsupported_digest) ∧
    (∀ (name sig : Str) (mac : Str → Str → Str), '=' ∉ name →
      lookupPairs digests name = some mac →
      (verify digests secret body (some (name ++ '=' :: sig)) = .authenticated ↔
        sig = mac secret body)) ∧
    (∀ (name sig : Str) (mac : Str → Str → Str), '=' ∉ name →
      lookupPairs digests name = some mac →
      sig ≠ mac secret body →
      verify digests secret body (some (name ++ '=' :: sig)) =
        .rejected 403 .signature_mismatch) ∧
    (∀ (hdr : Option Str) (status : Nat) (reason : RejectReason)
        (processA processB : Str → WebhookReply),
      verify digests secret body hdr = .rejected status reason →
      webhookPost digests (some secret) hdr body processA =
          { status := status, delivered := [] } ∧
      webhookPost digests (some secret) hdr body processA =
          webhookPost digests (some secret) hdr body processB) := by
  refine ⟨rfl, ?_, ?_, ?_, ?_⟩
  · intro name sig hname hlook
    obtain ⟨ht, hd⟩ := splitEq_parts name sig hname
    simp only [verify, ht, hd, hlook]
  · intro name sig mac hname hlook
    obtain ⟨ht, hd⟩ := splitEq_parts name sig hname
    simp only [verify, ht, hd, hlook]
    constructor
    · intro hv
      by_cases hm : (mac secret body == sig) = true
      · exact (beq_iff_eq.mp hm).symm
      · rw [if_neg hm] at hv
        cases hv
    · intro hs
      subst hs
      simp
  · intro name sig mac hname hlook hne
    obtain ⟨ht, hd⟩ := splitEq_parts name sig hname
    simp only [verify, ht, hd, hlook]
    rw [if_neg (fun h => hne (beq_iff_eq.mp h).symm)]
  · intro hdr status reason processA processB hrej
    constructor
    · simp only [webhookPost, hrej]
    · simp only [webhookPost, hrej]

/-- Closed instance of `c1_verify_contract`: a one-entry digest table
with a concrete keyed hash authenticates the correctly signed request
and rejects the tampered one with 403. -/
theorem c1_verify_contract_witness :
    ('=' ∉ str "sha1") ∧
    lookupPairs [(str "sha1", fun k b => k ++ b)] (str "sha1") =
        some (fun (k b : Str) => k ++ b) ∧
    (verify [(str "sha1", fun k b => k ++ b)] (str "key") (str "body")
        (some (str "sha1" ++ '=' :: (str "key" ++ str "body"))) = .authenticated ↔
      str "key" ++ str "body" = str "key" ++ str "body") ∧
    verify [(str "sha1", fun k b => k ++ b)] (str "key") (str "body")
        (some (str "sha1" ++ '=' :: str "evil")) = .rejected 403 .signature_mismatch := by
  refine ⟨by decide, rfl, ?_, ?_⟩
  · exact (c1_verify_contract [(str "sha1", fun k b => k ++ b)] (str "key")
      (str "body")).2.2.1 (str "sha1") (str "key" ++ str "body") (fun k b => k ++ b)
      (by decide) rfl
  · exact (c1_verify_contract [(str "sha1", fun k b => k ++ b)] (str "key")
      (str "body")).2.2.2.1 (str "sha1") (str "evil") (fun k b => k ++ b)
      (by decide) rfl (by decide)

/-- C2: the HTTP acknowledgment listing the resolved channel
identifiers is the first action the webhook handler emits — every
formatting/delivery action comes after it — and the acknowledgment does
not depend on the formatting/delivery work at all, so the response path
never waits on delivery.  The final webhook source file is absent from
the provided tree (the legacy variant delivers synchronously), so the
dispatcher is modelled from the specification (§4.5, §5). -/
theorem c2_ack_before_delivery (targets : List GhHookRow)
    (fmtA fmtB : GhHookRow → List Str) :
    (webhookDispatch targets fmtA).head? =
        some (.respond (ackBody (targets.map (fun row => row.channel)))) ∧
    (webhookDispatch targets fmtA).head? = (webhookDispatch targets fmtB).head? ∧
    (webhookDispatch targets fmtA).tail.all DispatchEvent.isDeliver = true := by
  refine ⟨rfl, rfl, ?_⟩
  simp only [webhookDispatch, List.tail_cons, List.all_eq_true]
  intro e he
  simp only [List.mem_flatten, List.mem_map] at he
  obtain ⟨l, ⟨row, _, rfl⟩, hel⟩ := he
  obtain ⟨line, _, rfl⟩ := List.mem_map.mp hel
  rfl

/-- C5 (amended): `fmt_short_comment_body` returns the placeholder
`"(empty comment)"` for an absent (`None`) body and equally for an
empty or whitespace-only string body, and returns `"(no body text)"`
when the body is non-blank but every one of its lines is removed by the
quote/heading/HTML-comment filter. -/
theorem c5_empty_placeholders :
    fmt_short_comment_body .null = .ok (str "(empty comment)") ∧
    (∀ s : Str, pyStrip s = [] →
      fmt_short_comment_body (.str s) = .ok (str "(empty comment)")) ∧
    (∀ s : Str, pyStrip s ≠ [] → (pySplitlines s).filter commentLineKept = [] →
      fmt_short_comment_body (.str s) = .ok (str "(no body text)")) := by
  refine ⟨rfl, ?_, ?_⟩
  · intro s h
    simp [fmt_short_comment_body, h]
  · intro s h1 h2
    simp [fmt_short_comment_body, h1, h2]

/-- Closed instance of `c5_empty_placeholders`: the whitespace-only
body `" "` renders the `"(empty comment)"` placeholder, and the
all-quoted body `"> q"` renders `"(no body text)"`. -/
theorem c5_empty_placeholders_witness :
    (pyStrip (str " ") = [] ∧
      fmt_short_comment_body (.str (str " ")) = .ok (str "(empty comment)")) ∧
    (pyStrip (str "> q") ≠ [] ∧ (pySplitlines (str "> q")).filter commentLineKept = [] ∧
      fmt_short_comment_body (.str (str "> q")) = .ok (str "(no body text)")) :=
  ⟨⟨by decide, c5_empty_placeholders.2.1 (str " ") (by decide)⟩,
   ⟨by decide, by decide,
    c5_empty_placeholders.2.2 (str "> q") (by decide) (by decide)⟩⟩

/-- C5 is refuted as stated: the empty-string body — an "empty or
whitespace-only string" — renders `"(empty comment)"`, not the claimed
`"(no body text)"`. -/
theorem c5_counterexample :
    fmt_short_comment_body (.str (str "")) = .ok (str "(empty comment)") ∧
    (str "(empty comment)" : Str) ≠ str "(no body text)" := by
  refine ⟨rfl, by decide⟩

/-- C7: a `labeled`/`unlabeled` action on an `issues` or `pull_request`
event whose payload carries no label object (the `label` member missing
or null — generally, falsy) produces the empty message list: no line
with a placeholder label is rendered. -/
theorem c7_missing_label_noop (ev act : Str) (rest : List (Str × J)) (row : GhHookRow)
    (hev : ev = str "issues" ∨ ev = str "pull_request")
    (hact : act = str "labeled" ∨ act = str "unlabeled")
    (hlab : pyTruthy ((lookupPairs rest (str "label")).getD J.null) = false) :
    get_formatted_response (label_payload ev act rest) row = .ok [] := by
  rcases hev with rfl | rfl <;> rcases hact with rfl | rfl
  · have step : get_formatted_response (label_payload (str "issues") (str "labeled") rest) row =
        (do
          let lab ← J.getDefault (label_payload (str "issues") (str "labeled") rest)
            (str "label") J.null
          if pyTruthy lab then do
            let m ← fmt_issue_label_message (label_payload (str "issues") (str "labeled") rest) row
            let issue ← getItem (label_payload (str "issues") (str "labeled") rest) (str "issue")
            let hu ← asStr (← getItem issue (str "html_url"))
            pure [m ++ str " " ++ fmt_url hu row]
          else pure []) := rfl
    have hgd : J.getDefault (label_payload (str "issues") (str "labeled") rest)
        (str "label") J.null = .ok ((lookupPairs rest (str "label")).getD J.null) := rfl
    rw [step, hgd, ebind_ok, hlab]
    rfl
  · have step : get_formatted_response (label_payload (str "issues") (str "unlabeled") rest) row =
        (do
          let lab ← J.getDefault (label_payload (str "issues") (str "unlabeled") rest)
            (str "label") J.null
          if pyTruthy lab then do
            let m ← fmt_issue_label_message (label_payload (str "issues") (str "unlabeled") rest) row
            let issue ← getItem (label_payload (str "issues") (str "unlabeled") rest) (str "issue")
            let hu ← asStr (← getItem issue (str "html_url"))
            pure [m ++ str " " ++ fmt_url hu row]
          else pure []) := rfl
    have hgd : J.getDefault (label_payload (str "issues") (str "unlabeled") rest)
        (str "label") J.null = .ok ((lookupPairs rest (str "label")).getD J.null) := rfl
    rw [step, hgd, ebind_ok, hlab]
    rfl
  · have step : get_formatted_response
        (label_payload (str "pull_request") (str "labeled") rest) row =
        (do
          let lab ← J.getDefault (label_payload (str "pull_request") (str "labeled") rest)
            (str "label") J.null
          if pyTruthy lab then do
            let m ← fmt_issue_label_message
              (label_payload (str "pull_request") (str "labeled") rest) row
            let pr ← getItem (label_payload (str "pull_request") (str "labeled") rest)
              (str "pull_request")
            let hu ← asStr (← getItem pr (str "html_url"))
            pure [m ++ str " " ++ fmt_url hu row]
          else pure []) := rfl
    have hgd : J.getDefault (label_payload (str "pull_request") (str "labeled") rest)
        (str "label") J.null = .ok ((lookupPairs rest (str "label")).getD J.null) := rfl
    rw [step, hgd, ebind_ok, hlab]
    rfl
  · have step : get_formatted_response
        (label_payload (str "pull_request") (str "unlabeled") rest) row =
        (do
          let lab ← J.getDefault (label_payload (str "pull_request") (str "unlabeled") rest)
            (str "label") J.null
          if pyTruthy lab then do
            let m ← fmt_issue_label_message
              (label_payload (str "pull_request") (str "unlabeled") rest) row
            let pr ← getItem (label_payload (str "pull_request") (str "unlabeled") rest)
              (str "pull_request")
            let hu ← asStr (← getItem pr (str "html_url"))
            pure [m ++ str " " ++ fmt_url hu row]
          else pure []) := rfl
    have hgd : J.getDefault (label_payload (str "pull_request") (str "unlabeled") rest)
        (str "label") J.null = .ok ((lookupPairs rest (str "label")).getD J.null) := rfl
    rw [step, hgd, ebind_ok, hlab]
    rfl

/-- Closed instance of `c7_missing_label_noop`: an `issues`/`labeled`
payload with no `label` member renders zero lines. -/
theorem c7_missing_label_noop_witness :
    pyTruthy ((lookupPairs ([] : List (Str × J)) (str "label")).getD J.null) = false ∧
    get_formatted_response (label_payload (str "issues") (str "labeled") []) defaultRow =
      .ok [] :=
  ⟨by decide,
   c7_missing_label_noop _ _ [] defaultRow (Or.inl rfl) (Or.inl rfl) (by decide)⟩

/-- C3 (amended): a `pull_request_review` payload with action
`submitted` and state `commented` is suppressed — zero rendered
lines — exactly when the review body is null (JSON `null`, the absent
body); an empty-string or whitespace-only body is not suppressed and
renders one review-summary line. -/
theorem c3_empty_review_suppression (repoName login : Str) (num : J) (htmlUrl : Str)
    (row : GhHookRow) :
    (get_formatted_response
        (review_payload (.str (str "commented")) .null repoName login num htmlUrl) row =
      .ok []) ∧
    (∀ bs : Str, pyStrip bs = [] →
      ∃ m, get_formatted_response
          (review_payload (.str (str "commented")) (.str bs) repoName login num htmlUrl)
          row = .ok [m]) := by
  constructor
  · rfl
  · intro bs h
    match bs with
    | [] => exact ⟨_, rfl⟩
    | c :: t =>
      have hf : fmt_short_comment_body (J.str (c :: t)) = .ok (str "(empty comment)") := by
        simp [fmt_short_comment_body, h]
      have step : get_formatted_response
          (review_payload (.str (str "commented")) (.str (c :: t)) repoName login num htmlUrl)
          row =
          ((fmt_short_comment_body (J.str (c :: t)) >>= fun s =>
            pure (str "[" ++ fmt_repo repoName row ++ str "] " ++ fmt_name login row ++
                  str " " ++ str "left a review on" ++ str " pull request #" ++
                  pyFormatJ num ++ emojize (str ": " ++ s))) >>= fun m =>
            pure [m ++ str " " ++ fmt_url htmlUrl row]) := rfl
      rw [step, hf, ebind_ok]
      exact ⟨_, rfl⟩

/-- Closed instance of `c3_empty_review_suppression`: the null body
yields zero lines and the whitespace-only body `" "` yields one. -/
theorem c3_empty_review_suppression_witness :
    (get_formatted_response
        (review_payload (.str (str "commented")) .null (str "repo") (str "bob")
          (.num 7) (str "https://x/rev")) plainRow = .ok []) ∧
    pyStrip (str " ") = [] ∧
    (∃ m, get_formatted_response
        (review_payload (.str (str "commented")) (.str (str " ")) (str "repo") (str "bob")
          (.num 7) (str "https://x/rev")) plainRow = .ok [m]) :=
  ⟨(c3_empty_review_suppression (str "repo") (str "bob") (.num 7) (str "https://x/rev")
      plainRow).1,
   by decide,
   (c3_empty_review_suppression (str "repo") (str "bob") (.num 7) (str "https://x/rev")
      plainRow).2 (str " ") (by decide)⟩

/-- C10: a `gollum` (wiki) payload whose pages list does not contain
exactly one page makes `get_formatted_response` raise an exception
instead of returning a message list: with two or more pages the summary
formatter's `action + " " + count` concatenates a string with an
integer count (`TypeError`; the `actions.sort()` handed to
`fmt_arr_to_sentence` on the same line would pass `None` were it ever
reached), and with zero pages the formatter returns `None`, which the
caller concatenates with the URL string (`TypeError`) — any missing
member encountered on the way raises `KeyError` instead, still an
exception. -/
theorem c10_gollum_raises (pages : List J) (rest : List (Str × J)) (row : GhHookRow)
    (hn : pages.length ≠ 1) :
    ∃ e, get_formatted_response (gollum_payload pages rest) row = .error e := by
  match pages with
  | [p] => exact absurd rfl hn
  | [] =>
    have step : get_formatted_response (gollum_payload [] rest) row =
        (getItem (gollum_payload [] rest) (str "repository") >>= fun repo =>
          getItem repo (str "url") >>= fun x =>
          asStr x >>= fun _ =>
          (Except.error PyErr.typeError : Except PyErr (List Str))) := rfl
    cases hrepo : getItem (gollum_payload [] rest) (str "repository") with
    | error e =>
        rw [step, hrepo, ebind_err]
        exact ⟨e, rfl⟩
    | ok repo =>
        rw [step, hrepo, ebind_ok]
        cases hurl : getItem repo (str "url") with
        | error e =>
            rw [ebind_err]
            exact ⟨e, rfl⟩
        | ok x =>
            rw [ebind_ok]
            cases hax : asStr x with
            | error e =>
                rw [ebind_err]
                exact ⟨e, rfl⟩
            | ok ru =>
                rw [ebind_ok]
                exact ⟨PyErr.typeError, rfl⟩
  | p0 :: p1 :: ps =>
    have hg : fmt_gollum_summary_message (gollum_payload (p0 :: p1 :: ps) rest) row =
        (gollumPageActions (p0 :: p1 :: ps) >>= fun _ =>
          (Except.error PyErr.typeError : Except PyErr J)) := by
      have h0 : getItem (gollum_payload (p0 :: p1 :: ps) rest) (str "pages") =
          .ok (.arr (p0 :: p1 :: ps)) := rfl
      unfold fmt_gollum_summary_message
      rw [h0, ebind_ok]
      show (pyLen (J.arr (p0 :: p1 :: ps)) >>= fun n => _) = _
      rw [show pyLen (J.arr (p0 :: p1 :: ps)) = .ok ((p0 :: p1 :: ps).length) from rfl,
          ebind_ok]
      rw [if_neg (by simp), if_pos (by simp)]
    have hev : getItem (gollum_payload (p0 :: p1 :: ps) rest) (str "event") =
        .ok (.str (str "gollum")) := rfl
    have hpg : getItem (gollum_payload (p0 :: p1 :: ps) rest) (str "pages") =
        .ok (.arr (p0 :: p1 :: ps)) := rfl
    unfold get_formatted_response
    rw [hev]
    simp only [ebind_ok, reduceIte]
    rw [hpg]
    simp only [ebind_ok]
    rw [show pyLen (J.arr (p0 :: p1 :: ps)) = .ok ((p0 :: p1 :: ps).length) from rfl]
    simp only [ebind_ok]
    rw [if_pos (show (p0 :: p1 :: ps).length ≠ 0 by simp)]
    rw [show getIndex (J.arr (p0 :: p1 :: ps)) 0 = .ok p0 from rfl]
    simp only [ebind_ok]
    rw [hg]
    cases hhu : getItem p0 (str "html_url") with
    | error e =>
        rw [ebind_err]
        exact ⟨e, rfl⟩
    | ok x =>
        rw [ebind_ok]
        cases hax : asStr x with
        | error e =>
            rw [ebind_err]
            exact ⟨e, rfl⟩
        | ok url =>
            rw [ebind_ok]
            cases hga : gollumPageActions (p0 :: p1 :: ps) with
            | error e =>
                rw [ebind_err, ebind_err]
                exact ⟨e, rfl⟩
            | ok acts =>
                rw [ebind_ok, ebind_err]
                exact ⟨PyErr.typeError, rfl⟩

/-- Closed instance of `c10_gollum_raises`: the zero-page payload (with
no other members) raises. -/
theorem c10_gollum_raises_witness :
    ([] : List J).length ≠ 1 ∧
    (∃ e, get_formatted_response (gollum_payload [] []) defaultRow = .error e) :=
  ⟨by decide, c10_gollum_raises [] [] defaultRow (by decide)⟩

/-- C6: a push payload whose `before` sha is forty zeros, with ref
`refs/heads/main`, no base ref and exactly two distinct non-empty
commits renders `"created main (+2 new commits)"` — the branch name
wrapped in the row's branch colour and the count in bold markers, as
the source emits them — after the `"[repo] pusher"` prefix. -/
theorem c6_created_branch_push (repoName repoUrl pusher after compareUrl : Str)
    (id1 msg1 a1 u1 id2 msg2 a2 u2 : Str) (row : GhHookRow)
    (h1 : pyStrip msg1 ≠ []) (h2 : pyStrip msg2 ≠ []) :
    fmt_push_summary_message
      (push_payload repoName repoUrl pusher (str "refs/heads/main") zeros40 after
        false false false .null
        [commit_payload id1 msg1 a1 u1 true, commit_payload id2 msg2 a2 u2 true]
        compareUrl) row =
    .ok ((str "[" ++ fmt_repo repoName row ++ str "] " ++ fmt_name pusher row) ++
         (str " created " ++ (fmt_branch (str "main") row ++
          str " (+\x022\x0f new commits)"))) := by
  have k1 : distinctCommitKeep (commit_payload id1 msg1 a1 u1 true) = .ok true := by
    show Except.ok (!(pyStrip msg1).isEmpty) = Except.ok true
    have he : (pyStrip msg1).isEmpty = false := by
      cases hh : pyStrip msg1 with
      | nil => exact absurd hh h1
      | cons a t => rfl
    rw [he]
    rfl
  have k2 : distinctCommitKeep (commit_payload id2 msg2 a2 u2 true) = .ok true := by
    show Except.ok (!(pyStrip msg2).isEmpty) = Except.ok true
    have he : (pyStrip msg2).isEmpty = false := by
      cases hh : pyStrip msg2 with
      | nil => exact absurd hh h2
      | cons a t => rfl
    rw [he]
    rfl
  have hfc : filterCommits
      [commit_payload id1 msg1 a1 u1 true, commit_payload id2 msg2 a2 u2 true] =
      .ok [commit_payload id1 msg1 a1 u1 true, commit_payload id2 msg2 a2 u2 true] := by
    rw [show filterCommits
        [commit_payload id1 msg1 a1 u1 true, commit_payload id2 msg2 a2 u2 true] =
        (distinctCommitKeep (commit_payload id1 msg1 a1 u1 true) >>= fun keep =>
          (distinctCommitKeep (commit_payload id2 msg2 a2 u2 true) >>= fun keep2 =>
            Except.ok (if keep2 then [commit_payload id2 msg2 a2 u2 true] else [])) >>=
            fun tail =>
            Except.ok (if keep then commit_payload id1 msg1 a1 u1 true :: tail else tail))
        from rfl, k1, ebind_ok, k2, ebind_ok, ebind_ok]
    rfl
  have hdc : get_distinct_commits
      (push_payload repoName repoUrl pusher (str "refs/heads/main") zeros40 after
        false false false .null
        [commit_payload id1 msg1 a1 u1 true, commit_payload id2 msg2 a2 u2 true]
        compareUrl) =
      .ok (.arr [commit_payload id1 msg1 a1 u1 true,
                 commit_payload id2 msg2 a2 u2 true]) := by
    rw [show get_distinct_commits
        (push_payload repoName repoUrl pusher (str "refs/heads/main") zeros40 after
          false false false .null
          [commit_payload id1 msg1 a1 u1 true, commit_payload id2 msg2 a2 u2 true]
          compareUrl) =
        (filterCommits
          [commit_payload id1 msg1 a1 u1 true, commit_payload id2 msg2 a2 u2 true] >>=
          fun kept => Except.ok (J.arr kept)) from rfl, hfc, ebind_ok]
  have step : fmt_push_summary_message
      (push_payload repoName repoUrl pusher (str "refs/heads/main") zeros40 after
        false false false .null
        [commit_payload id1 msg1 a1 u1 true, commit_payload id2 msg2 a2 u2 true]
        compareUrl) row =
      (get_distinct_commits
        (push_payload repoName repoUrl pusher (str "refs/heads/main") zeros40 after
          false false false .null
          [commit_payload id1 msg1 a1 u1 true, commit_payload id2 msg2 a2 u2 true]
          compareUrl) >>= fun dc =>
       pyLen dc >>= fun n =>
       if n = 0 then
         get_distinct_commits
           (push_payload repoName repoUrl pusher (str "refs/heads/main") zeros40 after
             false false false .null
             [commit_payload id1 msg1 a1 u1 true, commit_payload id2 msg2 a2 u2 true]
             compareUrl) >>= fun dc2 =>
         pyLen dc2 >>= fun num =>
         Except.ok (joinSpace
           ((str "[" ++ fmt_repo repoName row ++ str "] " ++ fmt_name pusher row) ::
            ([str "created " ++ fmt_branch (str "main") row] ++
             [str "at " ++ fmt_hash (after.take 7) row] ++
             [str "(+\x02" ++ natStr num ++ str "\x0f new commit" ++
              (if 1 < num then str "s" else []) ++ str ")"])))
       else
         get_distinct_commits
           (push_payload repoName repoUrl pusher (str "refs/heads/main") zeros40 after
             false false false .null
             [commit_payload id1 msg1 a1 u1 true, commit_payload id2 msg2 a2 u2 true]
             compareUrl) >>= fun dc2 =>
         pyLen dc2 >>= fun num =>
         Except.ok (joinSpace
           ((str "[" ++ fmt_repo repoName row ++ str "] " ++ fmt_name pusher row) ::
            ([str "created " ++ fmt_branch (str "main") row] ++ [] ++
             [str "(+\x02" ++ natStr num ++ str "\x0f new commit" ++
              (if 1 < num then str "s" else []) ++ str ")"])))) := rfl
  rw [step]
  simp only [hdc, ebind_ok]
  simp only [show pyLen (J.arr [commit_payload id1 msg1 a1 u1 true,
      commit_payload id2 msg2 a2 u2 true]) = .ok 2 from rfl, ebind_ok]
  rfl

/-- Closed instance of `c6_created_branch_push` at concrete commit
messages and the default colour row. -/
theorem c6_created_branch_push_witness :
    pyStrip (str "fix") ≠ [] ∧ pyStrip (str "more") ≠ [] ∧
    fmt_push_summary_message
      (push_payload (str "repo") (str "https://x/r") (str "alice")
        (str "refs/heads/main") zeros40 (str "abcdef1234")
        false false false .null
        [commit_payload (str "aaa") (str "fix") (str "al") (str "u1") true,
         commit_payload (str "bbb") (str "more") (str "bo") (str "u2") true]
        (str "https://x/cmp")) defaultRow =
    .ok ((str "[" ++ fmt_repo (str "repo") defaultRow ++ str "] " ++
          fmt_name (str "alice") defaultRow) ++
         (str " created " ++ (fmt_branch (str "main") defaultRow ++
          str " (+\x022\x0f new commits)"))) :=
  ⟨by decide, by decide,
   c6_created_branch_push (str "repo") (str "https://x/r") (str "alice")
     (str "abcdef1234") (str "https://x/cmp") (str "aaa") (str "fix") (str "al")
     (str "u1") (str "bbb") (str "more") (str "bo") (str "u2") defaultRow
     (by decide) (by decide)⟩

/-- C4 (amended): in the push summary the commit-count noun is plural
exactly for counts above 1 — `"commit"` for counts 0 and 1, `"commits"`
for 2 and more — as the source appends `'s' if num > 1 else ''`; shown
for the `"pushed N new commit(s) to <branch>"` form at every count. -/
theorem c4_pluralization (repoName repoUrl pusher ref compareUrl : Str)
    (commits : List J) (row : GhHookRow)
    (hfc : filterCommits commits = .ok commits) :
    fmt_push_summary_message
      (push_payload repoName repoUrl pusher ref (str "befbefbef") (str "aftaftaft")
        false false false .null commits compareUrl) row =
    .ok ((str "[" ++ fmt_repo repoName row ++ str "] " ++ fmt_name pusher row) ++
         ' ' :: (str "pushed \x02" ++ natStr commits.length ++ str "\x0f new commit" ++
           (if 1 < commits.length then str "s" else []) ++ str " to " ++
           fmt_branch (stripRefsPrefix ref) row)) := by
  cases commits with
  | nil => rfl
  | cons C cs =>
    have hdc : get_distinct_commits
        (push_payload repoName repoUrl pusher ref (str "befbefbef") (str "aftaftaft")
          false false false .null (C :: cs) compareUrl) = .ok (.arr (C :: cs)) := by
      rw [show get_distinct_commits
          (push_payload repoName repoUrl pusher ref (str "befbefbef") (str "aftaftaft")
            false false false .null (C :: cs) compareUrl) =
          (filterCommits (C :: cs) >>= fun kept => Except.ok (J.arr kept)) from rfl,
          hfc, ebind_ok]
    have step : fmt_push_summary_message
        (push_payload repoName repoUrl pusher ref (str "befbefbef") (str "aftaftaft")
          false false false .null (C :: cs) compareUrl) row =
        (if 0 < (C :: cs).length then
          get_distinct_commits
            (push_payload repoName repoUrl pusher ref (str "befbefbef") (str "aftaftaft")
              false false false .null (C :: cs) compareUrl) >>= fun dc =>
          pyLen dc >>= fun n =>
          (if (n == 0) = true then
            Except.ok (joinSpace
              [str "[" ++ fmt_repo repoName row ++ str "] " ++ fmt_name pusher row,
               str "fast-forwarded " ++ fmt_branch (stripRefsPrefix ref) row ++
                 str " from " ++ fmt_hash ((str "befbefbef").take 7) row ++ str " to " ++
                 fmt_hash ((str "aftaftaft").take 7) row])
          else
            get_distinct_commits
              (push_payload repoName repoUrl pusher ref (str "befbefbef")
                (str "aftaftaft") false false false .null (C :: cs) compareUrl) >>=
              fun dc2 =>
            pyLen dc2 >>= fun num =>
            Except.ok (joinSpace
              [str "[" ++ fmt_repo repoName row ++ str "] " ++ fmt_name pusher row,
               str "pushed \x02" ++ natStr num ++ str "\x0f new commit" ++
                 (if 1 < num then str "s" else []) ++ str " to " ++
                 fmt_branch (stripRefsPrefix ref) row]))
        else
          get_distinct_commits
            (push_payload repoName repoUrl pusher ref (str "befbefbef") (str "aftaftaft")
              false false false .null (C :: cs) compareUrl) >>= fun dc2 =>
          pyLen dc2 >>= fun num =>
          Except.ok (joinSpace
            [str "[" ++ fmt_repo repoName row ++ str "] " ++ fmt_name pusher row,
             str "pushed \x02" ++ natStr num ++ str "\x0f new commit" ++
               (if 1 < num then str "s" else []) ++ str " to " ++
               fmt_branch (stripRefsPrefix ref) row])) := rfl
    rw [step, if_pos (show 0 < (C :: cs).length by simp)]
    simp only [hdc, ebind_ok]
    simp only [show pyLen (J.arr (C :: cs)) = .ok ((C :: cs).length) from rfl, ebind_ok]
    rw [show (((C :: cs).length == 0) = false) from by simp]
    rfl

/-- Closed instance of `c4_pluralization` at one commit: the count 1
renders the singular noun. -/
theorem c4_pluralization_witness :
    filterCommits [commit_payload (str "a") (str "m") (str "au") (str "u") true] =
        .ok [commit_payload (str "a") (str "m") (str "au") (str "u") true] ∧
    fmt_push_summary_message
      (push_payload (str "r") (str "ru") (str "p") (str "refs/heads/dev")
        (str "befbefbef") (str "aftaftaft") false false false .null
        [commit_payload (str "a") (str "m") (str "au") (str "u") true]
        (str "cmp")) defaultRow =
    .ok ((str "[" ++ fmt_repo (str "r") defaultRow ++ str "] " ++
          fmt_name (str "p") defaultRow) ++
         ' ' :: (str "pushed \x02" ++ natStr 1 ++ str "\x0f new commit" ++
           (if 1 < 1 then str "s" else []) ++ str " to " ++
           fmt_branch (stripRefsPrefix (str "refs/heads/dev")) defaultRow)) :=
  ⟨rfl,
   c4_pluralization (str "r") (str "ru") (str "p") (str "refs/heads/dev") (str "cmp")
     [commit_payload (str "a") (str "m") (str "au") (str "u") true] defaultRow rfl⟩

/-- C4 is refuted as stated: a push creating `main` with zero distinct
commits renders the singular `"(+0 new commit)"`, not the plural the
claim requires for every count other than 1. -/
theorem c4_counterexample :
    fmt_push_summary_message
      (push_payload (str "r") (str "u") (str "p") (str "refs/heads/main") zeros40
        (str "abcdef1") false false false .null [] (str "cmp")) plainRow =
      .ok (str "[r] p created main at abcdef1 (+\x020\x0f new commit)") ∧
    strContains (str "new commits")
      (str "[r] p created main at abcdef1 (+\x020\x0f new commit)") = false ∧
    strContains (str "new commit")
      (str "[r] p created main at abcdef1 (+\x020\x0f new commit)") = true :=
  ⟨rfl, by decide, by decide⟩

/-- C3 is refuted as stated: a submitted `commented` review whose body
is the empty string — "empty or absent" per the claim — still renders
one chat line instead of the claimed zero. -/
theorem c3_counterexample :
    get_formatted_response
        (review_payload (.str (str "commented")) (.str (str "")) (str "repo") (str "bob")
          (.num 7) (str "https://x/rev")) plainRow =
      .ok [str "[repo] bob left a review on pull request #7 https://x/rev"] ∧
    (str "[repo] bob left a review on pull request #7 https://x/rev" :: []) ≠
      ([] : List Str) := by
  refine ⟨rfl, by decide⟩

/-! ### Lemmas about the `textwrap` model, for C8 and C9 -/

/-- `dropWhile` never lengthens a list. -/
theorem dropWhile_length_le (p : Char → Bool) (l : Str) :
    (l.dropWhile p).length ≤ l.length := by
  induction l with
  | nil => simp [List.dropWhile]
  | cons a t ih =>
    rw [List.dropWhile_cons]
    split
    · exact Nat.le_succ_of_le ih
    · exact Nat.le_refl _

/-- Tab expansion is the identity on tab-free text. -/
theorem cw_expandTabsGo_id : ∀ (s : Str), '\t' ∉ s → ∀ col, expandTabsGo col s = s := by
  intro s
  induction s with
  | nil => intro _ _; rfl
  | cons c rest ih =>
    intro h col
    have hc : c ≠ '\t' := fun e => h (e ▸ List.mem_cons_self c rest)
    have hr : '\t' ∉ rest := fun m => h (List.mem_cons_of_mem c m)
    rw [expandTabsGo.eq_def]
    split
    · rename_i heq
      exact absurd heq (by simp)
    · rename_i r2 heq
      rw [List.cons.injEq] at heq
      exact absurd heq.1 hc
    · rename_i c2 r2 hne1 hne2 heq
      rw [List.cons.injEq] at heq
      obtain ⟨rfl, rfl⟩ := heq
      split <;> rw [ih hr]

/-- Whitespace normalisation is the identity when the only whitespace
characters present are already plain spaces. -/
theorem cw_replaceWs_id (s : Str) (h : ∀ c ∈ s, pyIsSpace c = true → c = ' ') :
    pyReplaceWs s = s := by
  induction s with
  | nil => rfl
  | cons a t ih =>
    show (if pyIsSpace a then ' ' else a) :: t.map _ = a :: t
    rw [show t.map (fun c => if pyIsSpace c then ' ' else c) = pyReplaceWs t from rfl,
      ih (fun c hc hsp => h c (List.mem_cons_of_mem a hc) hsp)]
    by_cases hsp : pyIsSpace a = true
    · rw [if_pos hsp, h a (List.mem_cons_self a t) hsp]
    · rw [if_neg (by simpa using hsp)]

/-- The chunking worker ignores the exact fuel value as long as the
fuel covers the length of the input. -/
theorem chunksOfGo_fuel : ∀ (f1 : Nat) (s : Str) (f2 : Nat), s.length ≤ f1 → s.length ≤ f2 →
    chunksOfGo f1 s = chunksOfGo f2 s := by
  intro f1
  induction f1 with
  | zero =>
    intro s f2 h1 _
    rw [List.eq_nil_of_length_eq_zero (Nat.le_zero.mp h1)]
    cases f2 <;> rfl
  | succ f ih =>
    intro s f2 h1 h2
    cases s with
    | nil => cases f2 <;> rfl
    | cons c rest =>
      cases f2 with
      | zero =>
        simp only [List.length_cons, Nat.le_zero] at h2
        omega
      | succ g =>
        rw [chunksOfGo]
        rw [chunksOfGo]
        have hd := dropWhile_length_le (fun d => (d == ' ') == (c == ' ')) rest
        simp only [List.length_cons] at h1 h2
        rw [ih (rest.dropWhile (fun d => (d == ' ') == (c == ' '))) g (by omega) (by omega)]

/-- Unfolding equation of `chunksOf` on a non-empty string. -/
theorem chunksOf_cons (c : Char) (rest : Str) :
    chunksOf (c :: rest) =
      (c :: rest.takeWhile (fun d => (d == ' ') == (c == ' ')))
        :: chunksOf (rest.dropWhile (fun d => (d == ' ') == (c == ' '))) := by
  show chunksOfGo (rest.length + 1) (c :: rest) = _
  rw [chunksOfGo]
  rw [chunksOfGo_fuel rest.length (rest.dropWhile (fun d => (d == ' ') == (c == ' ')))
    (rest.dropWhile (fun d => (d == ' ') == (c == ' '))).length
    (dropWhile_length_le _ rest) (Nat.le_refl _)]
  rfl

/-- The hex-abbreviation worker ignores the exact fuel value as long as
the fuel covers the length of the input. -/
theorem hexAbbrevGo_fuel : ∀ (f1 : Nat) (s : Str) (f2 : Nat), s.length ≤ f1 → s.length ≤ f2 →
    hexAbbrevGo f1 s = hexAbbrevGo f2 s := by
  intro f1
  induction f1 with
  | zero =>
    intro s f2 h1 _
    rw [List.eq_nil_of_length_eq_zero (Nat.le_zero.mp h1)]
    cases f2 <;> rfl
  | succ f ih =>
    intro s f2 h1 h2
    cases s with
    | nil => cases f2 <;> rfl
    | cons c rest =>
      cases f2 with
      | zero =>
        simp only [List.length_cons, Nat.le_zero] at h2
        omega
      | succ g =>
        rw [hexAbbrevGo]
        rw [hexAbbrevGo]
        simp only [List.length_cons] at h1 h2
        by_cases hcond : 40 ≤ (c :: rest).length ∧ ((c :: rest).take 40).all isHexChar
        · rw [if_pos hcond, if_pos hcond]
          rw [ih ((c :: rest).drop 40) g
            (by simp only [List.length_drop, List.length_cons]; omega)
            (by simp only [List.length_drop, List.length_cons]; omega)]
        · rw [if_neg hcond, if_neg hcond]
          rw [ih rest g (by omega) (by omega)]

/-- Unfolding equation of `hexAbbrev` on a non-empty string. -/
theorem hexAbbrev_cons (c : Char) (rest : Str) :
    hexAbbrev (c :: rest) =
      (if 40 ≤ (c :: rest).length ∧ ((c :: rest).take 40).all isHexChar then
        (c :: rest).take 7 ++ hexAbbrev ((c :: rest).drop 40)
      else
        c :: hexAbbrev rest) := by
  show hexAbbrevGo (rest.length + 1) (c :: rest) = _
  rw [hexAbbrevGo]
  rw [hexAbbrevGo_fuel rest.length ((c :: rest).drop 40) ((c :: rest).drop 40).length
    (by simp only [List.length_drop, List.length_cons]; omega) (Nat.le_refl _)]
  rfl

/-- Re-concatenating the chunks recovers the text. -/
theorem cw_chunksOf_flatten : ∀ (n : Nat) (s : Str), s.length ≤ n →
    (chunksOf s).flatten = s := by
  intro n
  induction n with
  | zero =>
    intro s hl
    rw [List.eq_nil_of_length_eq_zero (Nat.le_zero.mp hl)]
    rfl
  | succ n ih =>
    intro s hl
    match s with
    | [] => rfl
    | c :: rest =>
      rw [chunksOf_cons]
      rw [List.flatten_cons, ih _ (by
        have := dropWhile_length_le (fun d => (d == ' ') == (c == ' ')) rest
        simp only [List.length_cons] at hl
        omega)]
      simp [List.takeWhile_append_dropWhile]

/-- When everything fits in the width, the greedy fill takes all the
chunks. -/
theorem cw_wrapGreedy_all (w : Nat) : ∀ (chunks : List Str) (curLen : Nat) (cur : Str),
    curLen + chunks.flatten.length ≤ w →
    wrapGreedy w curLen cur chunks = cur ++ chunks.flatten := by
  intro chunks
  induction chunks with
  | nil => intro curLen cur _; simp [wrapGreedy]
  | cons ch rest ih =>
    intro curLen cur hle
    rw [wrapGreedy]
    rw [if_pos (by simp only [List.flatten_cons, List.length_append] at hle; omega)]
    rw [ih _ _ (by simp only [List.flatten_cons, List.length_append] at hle; omega)]
    simp

/-- The greedy fill appends to the running line a prefix of the
remaining text, and never exceeds the width. -/
theorem cw_wrapGreedy_prefix (w : Nat) : ∀ (chunks : List Str) (curLen : Nat) (cur : Str),
    cur.length = curLen → curLen ≤ w →
    ∃ p : Str, wrapGreedy w curLen cur chunks = cur ++ p ∧ p <+: chunks.flatten ∧
      (wrapGreedy w curLen cur chunks).length ≤ w := by
  intro chunks
  induction chunks with
  | nil =>
    intro curLen cur hcl hw
    exact ⟨[], by simp [wrapGreedy], List.prefix_rfl, by simpa [wrapGreedy, hcl] using hw⟩
  | cons ch rest ih =>
    intro curLen cur hcl hw
    rw [wrapGreedy]
    by_cases hfit : curLen + ch.length ≤ w
    · rw [if_pos hfit]
      obtain ⟨p, hp1, hp2, hp3⟩ := ih (curLen + ch.length) (cur ++ ch) (by simp [hcl]) hfit
      refine ⟨ch ++ p, ?_, ?_, hp3⟩
      · rw [hp1, List.append_assoc]
      · obtain ⟨t, ht⟩ := hp2
        exact ⟨t, by rw [List.append_assoc, ht, List.flatten_cons]⟩
    · rw [if_neg hfit]
      by_cases hlong : w < ch.length
      · rw [if_pos hlong]
        refine ⟨ch.take (w - curLen), rfl, ?_, ?_⟩
        · exact (List.take_prefix _ _).trans ⟨rest.flatten, List.flatten_cons .. ▸ rfl⟩
        · simp only [List.length_append, List.length_take, hcl]
          omega
      · rw [if_neg hlong]
        exact ⟨[], by simp, ⟨ch ++ rest.flatten, by simp⟩, by rw [hcl]; exact hw⟩

/-- When the first chunk starts with a character and the width is
positive, the greedy fill of a fresh line keeps that first character. -/
theorem cw_wrapGreedy_first (w : Nat) (hw : 0 < w) (c : Char) (tw : Str) (rest : List Str) :
    ∃ q : Str, wrapGreedy w 0 [] ((c :: tw) :: rest) = c :: q := by
  rw [wrapGreedy]
  by_cases hfit : 0 + (c :: tw).length ≤ w
  · rw [if_pos hfit]
    obtain ⟨p, hp1, _, _⟩ :=
      cw_wrapGreedy_prefix w rest (0 + (c :: tw).length) ([] ++ (c :: tw)) (by simp) (by omega)
    exact ⟨tw ++ p, by rw [hp1]; simp⟩
  · rw [if_neg hfit, if_pos (by simp only [List.length_cons] at hfit ⊢; omega)]
    refine ⟨tw.take (w - 1), ?_⟩
    rw [List.nil_append]
    cases w with
    | zero => exact absurd hw (by omega)
    | succ n => simp

/-- The result of dropping trailing spaces is a prefix of the line. -/
theorem cw_dropTrailing_isPre (l : Str) : dropTrailingSpaces l <+: l := by
  unfold dropTrailingSpaces
  have h := List.dropWhile_suffix (l := l.reverse) (fun c => c == ' ')
  have h2 := List.reverse_prefix.mpr h
  rwa [List.reverse_reverse] at h2

/-- Dropping trailing spaces is the identity when the last character is
not a space. -/
theorem cw_dropTrailing_getLast (l : Str) (d : Char) (hd : l.getLast? = some d)
    (hds : d ≠ ' ') : dropTrailingSpaces l = l := by
  unfold dropTrailingSpaces
  rw [← List.head?_reverse] at hd
  obtain ⟨t, ht⟩ := List.head?_eq_some_iff.mp hd
  rw [ht, List.dropWhile_cons, if_neg (by simpa using hds), ← ht, List.reverse_reverse]

/-- A line containing a non-space character does not vanish when its
trailing spaces are dropped. -/
theorem cw_dropTrailing_ne_nil (l : Str) (c : Char) (hc : c ∈ l) (hne : c ≠ ' ') :
    dropTrailingSpaces l ≠ [] := by
  unfold dropTrailingSpaces
  intro hcontra
  have h0 : l.reverse.dropWhile (fun c => c == ' ') = [] := by
    have := congrArg List.reverse hcontra
    rwa [List.reverse_reverse] at this
  rw [List.dropWhile_eq_nil_iff] at h0
  exact hne (by simpa using h0 c (List.mem_reverse.mpr hc))

/-- A stripped string is a prefix of the string with only its leading
whitespace dropped. -/
theorem cw_strip_prefix_dropWhile (s : Str) :
    pyStrip s <+: s.dropWhile pyIsSpace := by
  unfold pyStrip
  have h := List.dropWhile_suffix (l := (s.dropWhile pyIsSpace).reverse) pyIsSpace
  have h2 := List.reverse_prefix.mpr h
  rwa [List.reverse_reverse] at h2

/-- Every character of `pyStrip s` is a character of `s`. -/
theorem cw_strip_subset (s : Str) : ∀ c ∈ pyStrip s, c ∈ s := by
  intro c hc
  unfold pyStrip at hc
  rw [List.mem_reverse] at hc
  have h1 := List.dropWhile_subset (l := (s.dropWhile pyIsSpace).reverse) pyIsSpace hc
  rw [List.mem_reverse] at h1
  exact List.dropWhile_subset pyIsSpace h1

/-- A non-empty stripped string starts with a non-whitespace character. -/
theorem cw_strip_head (s : Str) (h : pyStrip s ≠ []) :
    ∃ d, (pyStrip s).head? = some d ∧ pyIsSpace d = false := by
  obtain ⟨c, t, hct⟩ := List.exists_cons_of_ne_nil h
  refine ⟨c, by rw [hct]; rfl, ?_⟩
  have hu : (s.dropWhile pyIsSpace).head? = some c := by
    obtain ⟨r, hr⟩ := cw_strip_prefix_dropWhile s
    rw [← hr, hct]
    rfl
  have hnot := List.head?_dropWhile_not pyIsSpace s
  rw [hu] at hnot
  exact hnot

/-- A non-empty stripped string ends with a non-whitespace character. -/
theorem cw_strip_getLast (s : Str) (h : pyStrip s ≠ []) :
    ∃ d, (pyStrip s).getLast? = some d ∧ pyIsSpace d = false := by
  have hv : pyStrip s = ((s.dropWhile pyIsSpace).reverse.dropWhile pyIsSpace).reverse := rfl
  have hvne : (s.dropWhile pyIsSpace).reverse.dropWhile pyIsSpace ≠ [] := by
    intro he
    rw [hv, he] at h
    exact h rfl
  obtain ⟨c, t, hct⟩ := List.exists_cons_of_ne_nil hvne
  refine ⟨c, ?_, ?_⟩
  · rw [hv, List.getLast?_reverse, hct]
    rfl
  · have hnot := List.head?_dropWhile_not pyIsSpace (s.dropWhile pyIsSpace).reverse
    rw [hct] at hnot
    exact hnot

/-- A hexadecimal character is not whitespace. -/
theorem cw_hexChar_not_space (d : Char) (h : isHexChar d = true) : pyIsSpace d = false := by
  by_contra hc
  rw [Bool.not_eq_false] at hc
  have hd : d = ' ' ∨ d = '\t' ∨ d = '\n' ∨ d = '\x0d' ∨ d = '\x0b' ∨ d = '\x0c' := by
    simp only [pyIsSpace, Bool.or_eq_true, decide_eq_true_eq] at hc
    tauto
  rcases hd with h1 | h1 | h1 | h1 | h1 | h1 <;> (subst h1; exact absurd h (by decide))

/-- Hex-run abbreviation never produces the empty string from a
non-empty one. -/
theorem cw_hexAbbrev_ne_nil (s : Str) (h : s ≠ []) : hexAbbrev s ≠ [] := by
  obtain ⟨c, rest, rfl⟩ := List.exists_cons_of_ne_nil h
  rw [hexAbbrev_cons]
  split
  · rename_i hcond
    have : (c :: rest).take 7 = c :: rest.take 6 := rfl
    rw [this]
    simp
  · simp

/-- Hex-run abbreviation keeps the first character. -/
theorem cw_hexAbbrev_head (s : Str) : (hexAbbrev s).head? = s.head? := by
  match s with
  | [] => rfl
  | c :: rest =>
    rw [hexAbbrev_cons]
    split
    · rw [show (c :: rest).take 7 = c :: rest.take 6 from rfl]
      rfl
    · rfl

/-- Every character of `hexAbbrev s` is a character of `s`. -/
theorem cw_hexAbbrev_subset : ∀ (n : Nat) (s : Str), s.length ≤ n →
    ∀ c ∈ hexAbbrev s, c ∈ s := by
  intro n
  induction n with
  | zero =>
    intro s hl c hc
    rw [List.eq_nil_of_length_eq_zero (Nat.le_zero.mp hl)] at hc
    exact absurd hc (List.not_mem_nil c)
  | succ n ih =>
    intro s hl c hc
    match s with
    | [] =>
      exact absurd hc (List.not_mem_nil c)
    | a :: rest =>
      rw [hexAbbrev_cons] at hc
      revert hc
      split
      · intro hc
        rcases List.mem_append.mp hc with h1 | h1
        · exact List.mem_of_mem_take h1
        · have hbound : ((a :: rest).drop 40).length ≤ n := by
            rw [List.length_drop]
            simp only [List.length_cons] at hl ⊢
            omega
          exact List.mem_of_mem_drop (ih _ hbound c h1)
      · intro hc
        rcases List.mem_cons.mp hc with h1 | h1
        · exact h1 ▸ List.mem_cons_self a rest
        · exact List.mem_cons_of_mem a
            (ih rest (by simp only [List.length_cons] at hl; omega) c h1)

/-- The last character of `hexAbbrev s` is the last character of `s` or
a hexadecimal character (the tail of an abbreviated trailing run). -/
theorem cw_hexAbbrev_getLast : ∀ (n : Nat) (s : Str), s.length ≤ n →
    hexAbbrev s = [] ∨
    ∃ d, (hexAbbrev s).getLast? = some d ∧
      (s.getLast? = some d ∨ isHexChar d = true) := by
  intro n
  induction n with
  | zero =>
    intro s hl
    rw [List.eq_nil_of_length_eq_zero (Nat.le_zero.mp hl)]
    exact Or.inl rfl
  | succ n ih =>
    intro s hl
    match s with
    | [] => exact Or.inl rfl
    | a :: rest =>
      rw [hexAbbrev_cons]
      split
      · rename_i hcond
        have hbound : ((a :: rest).drop 40).length ≤ n := by
          rw [List.length_drop]
          simp only [List.length_cons] at hl ⊢
          omega
        rcases ih _ hbound with hnil | ⟨d, hd1, hd2⟩
        · right
          rw [hnil, List.append_nil]
          have h40 : 40 ≤ (a :: rest).length := hcond.1
          have h7 : ((a :: rest).take 7).length = 7 :=
            List.length_take_of_le (by omega)
          have hne7 : (a :: rest).take 7 ≠ [] := by
            intro he
            rw [he] at h7
            exact absurd h7 (by decide)
          obtain ⟨d, hd⟩ := Option.ne_none_iff_exists'.mp
            (mt List.getLast?_eq_none_iff.mp hne7)
          refine ⟨d, hd, Or.inr ?_⟩
          have hmem : d ∈ (a :: rest).take 7 := List.mem_of_getLast?_eq_some hd
          have hmem40 : d ∈ (a :: rest).take 40 := by
            refine List.mem_of_mem_take (n := 7) ?_
            rw [List.take_take]
            simpa using hmem
          exact List.all_eq_true.mp hcond.2 d hmem40
        · right
          have hvne : hexAbbrev ((a :: rest).drop 40) ≠ [] := by
            intro he
            rw [he] at hd1
            exact Option.noConfusion hd1
          refine ⟨d, ?_, ?_⟩
          · rw [List.getLast?_append_of_ne_nil _ hvne]
            exact hd1
          · rcases hd2 with h1 | h1
            · left
              have hdne : (a :: rest).drop 40 ≠ [] := by
                intro he
                rw [he] at hvne
                exact hvne rfl
              rw [← List.take_append_drop 40 (a :: rest),
                List.getLast?_append_of_ne_nil _ hdne]
              exact h1
            · exact Or.inr h1
      · rcases ih rest (by simp only [List.length_cons] at hl; omega) with hnil | ⟨d, hd1, hd2⟩
        · right
          have hrnil : rest = [] := by
            by_contra hrne
            exact cw_hexAbbrev_ne_nil rest hrne hnil
          subst hrnil
          exact ⟨a, rfl, Or.inl rfl⟩
        · right
          have hvne : hexAbbrev rest ≠ [] := by
            intro he
            rw [he] at hd1
            exact Option.noConfusion hd1
          have hrne : rest ≠ [] := by
            intro he
            rw [he, hexAbbrev] at hvne
            exact hvne rfl
          refine ⟨d, ?_, ?_⟩
          · rw [show (a :: hexAbbrev rest) = [a] ++ hexAbbrev rest from rfl,
              List.getLast?_append_of_ne_nil _ hvne]
            exact hd1
          · rcases hd2 with h1 | h1
            · left
              rw [show (a :: rest) = [a] ++ rest from rfl,
                List.getLast?_append_of_ne_nil _ hrne]
              exact h1
            · exact Or.inr h1

/-- `textwrap.wrap(text, w)[0]` is the identity on text that fits in
the width, has no whitespace other than plain spaces, and does not end
in a space. -/
theorem cw_wrapFirstLine_id (w : Nat) (t : Str)
    (hws : ∀ c ∈ t, pyIsSpace c = true → c = ' ')
    (hlast : ∀ d, t.getLast? = some d → d ≠ ' ')
    (hlen : t.length ≤ w) :
    wrapFirstLine w t = t := by
  have htab : '\t' ∉ t := by
    intro hm
    have h1 := hws '\t' hm (by decide)
    exact absurd h1 (by decide)
  unfold wrapFirstLine pyExpandTabs
  rw [cw_expandTabsGo_id t htab 0, cw_replaceWs_id t hws]
  rw [cw_wrapGreedy_all w (chunksOf t) 0 []
    (by rw [cw_chunksOf_flatten t.length t (Nat.le_refl _)]; omega)]
  rw [List.nil_append, cw_chunksOf_flatten t.length t (Nat.le_refl _)]
  cases hl : t.getLast? with
  | none =>
    rw [List.getLast?_eq_none_iff.mp hl]
    rfl
  | some d => exact cw_dropTrailing_getLast t d hl (hlast d hl)

/-- C9: on a comment body that is a single line surviving the quote /
heading / HTML-comment filter, already stripped, whose whitespace is
only plain spaces, that contains no 40-character hexadecimal run, and
that is at most 250 characters long, `fmt_short_comment_body` is the
identity, and therefore applying it to its own output changes nothing
(idempotence).  These hypotheses are strictly stronger than the ones
named by the spec (already-short, single-line, unquoted): see
`c9_counterexample` for a short single-line unquoted input on which
idempotence fails. -/
theorem c9_short_identity (body : Str)
    (hsingle : pySplitlines body = [body])
    (hws : ∀ c ∈ body, pyIsSpace c = true → c = ' ')
    (hkept : commentLineKept body = true)
    (hstrip : pyStrip body = body)
    (hhex : hexAbbrev body = body)
    (hlen : body.length ≤ 250) :
    fmt_short_comment_body (J.str body) = .ok body ∧
    (fmt_short_comment_body (J.str body) >>= fun s => fmt_short_comment_body (J.str s)) =
      fmt_short_comment_body (J.str body) := by
  have hne : body ≠ [] := by
    intro he
    rw [he] at hkept
    exact absurd hkept (by decide)
  obtain ⟨c0, t0, rfl⟩ := List.exists_cons_of_ne_nil hne
  have hnb : ¬(pyStrip (c0 :: t0) = []) := by
    rw [hstrip]
    exact hne
  have hlast : ∀ d, (c0 :: t0).getLast? = some d → d ≠ ' ' := by
    intro d hd he
    obtain ⟨d2, hd2, hd2s⟩ := cw_strip_getLast (c0 :: t0) hnb
    rw [hstrip, hd] at hd2
    have hdd : d = d2 := Option.some.inj hd2
    rw [← hdd] at hd2s
    rw [he] at hd2s
    exact absurd hd2s (by decide)
  have hid : wrapFirstLine 250 (c0 :: t0) = c0 :: t0 :=
    cw_wrapFirstLine_id 250 (c0 :: t0) hws hlast hlen
  have hwf : wrapFirst 250 (c0 :: t0) = .ok (c0 :: t0) := by
    unfold wrapFirst
    rw [hid]
  have hlines : ((pySplitlines (c0 :: t0)).filter commentLineKept).map pyStrip = [c0 :: t0] := by
    rw [hsingle]
    simp [hkept, hstrip]
  have step : fmt_short_comment_body (J.str (c0 :: t0)) =
      (if pyStrip (c0 :: t0) = [] then Except.ok (str "(empty comment)")
       else
         match ((pySplitlines (c0 :: t0)).filter commentLineKept).map pyStrip with
         | [] => Except.ok (str "(no body text)")
         | l0 :: restLines =>
             match wrapFirst 250 (hexAbbrev l0) with
             | .error e => Except.error e
             | .ok short =>
                 if restLines ≠ [] ∨ short ≠ hexAbbrev l0 then Except.ok (short ++ str " […]")
                 else Except.ok short) := rfl
  have h1 : fmt_short_comment_body (J.str (c0 :: t0)) = .ok (c0 :: t0) := by
    rw [step, if_neg hnb, hlines]
    show (match wrapFirst 250 (hexAbbrev (c0 :: t0)) with
      | .error e => Except.error e
      | .ok short =>
          if ([] : List Str) ≠ [] ∨ short ≠ hexAbbrev (c0 :: t0) then
            Except.ok (short ++ str " […]")
          else Except.ok short) = Except.ok (c0 :: t0)
    rw [hhex, hwf]
    show (if ([] : List Str) ≠ [] ∨ (c0 :: t0) ≠ (c0 :: t0) then
        Except.ok ((c0 :: t0) ++ str " […]")
      else Except.ok (c0 :: t0)) = (Except.ok (c0 :: t0) : Except PyErr Str)
    rw [if_neg (by simp)]
  refine ⟨h1, ?_⟩
  rw [h1, ebind_ok]
  exact h1

/-- Closed instance of `c9_short_identity`: the body `"hi"` is returned
unchanged and a second application changes nothing. -/
theorem c9_short_identity_witness :
    fmt_short_comment_body (J.str (str "hi")) = .ok (str "hi") ∧
    (fmt_short_comment_body (J.str (str "hi")) >>= fun s => fmt_short_comment_body (J.str s)) =
      fmt_short_comment_body (J.str (str "hi")) :=
  c9_short_identity (str "hi") (by decide) (by decide) (by decide) (by decide) (by decide)
    (by decide)

/-- Counterexample to C9 as stated: `" > q"` is a short, single-line
input whose raw first character is not `'>'` (so the filter keeps it and
it is unquoted in the sense tested by the code), yet
`fmt_short_comment_body` maps it to `"> q"` and maps `"> q"` to
`"(no body text)"`: the function is not the identity on it and applying
it twice differs from applying it once. -/
theorem c9_counterexample :
    (str " > q").length ≤ 250 ∧
    pySplitlines (str " > q") = [str " > q"] ∧
    commentLineKept (str " > q") = true ∧
    fmt_short_comment_body (J.str (str " > q")) = .ok (str "> q") ∧
    fmt_short_comment_body (J.str (str "> q")) = .ok (str "(no body text)") ∧
    str "(no body text)" ≠ str "> q" := by
  refine ⟨by decide, by decide, by decide, rfl, rfl, by decide⟩

/-- Specification of `textwrap.wrap(text, 250)[0]` on a line that
starts with a non-space character and whose whitespace is only plain
spaces: the subscript succeeds and yields a prefix of the line of at
most 250 characters. -/
theorem cw_wrapFirst_spec (t : Str) (c0 : Char) (ht : t.head? = some c0) (hc0 : c0 ≠ ' ')
    (hws : ∀ c ∈ t, pyIsSpace c = true → c = ' ') :
    ∃ core : Str, wrapFirst 250 t = .ok core ∧ core.length ≤ 250 ∧ core <+: t := by
  obtain ⟨ttail, rfl⟩ := List.head?_eq_some_iff.mp ht
  have htab : '\t' ∉ c0 :: ttail := by
    intro hm
    have h1 := hws '\t' hm (by decide)
    exact absurd h1 (by decide)
  have hfl : wrapFirstLine 250 (c0 :: ttail) =
      dropTrailingSpaces (wrapGreedy 250 0 [] (chunksOf (c0 :: ttail))) := by
    unfold wrapFirstLine pyExpandTabs
    rw [cw_expandTabsGo_id (c0 :: ttail) htab 0, cw_replaceWs_id (c0 :: ttail) hws]
  obtain ⟨p, hp1, hp2, hp3⟩ :=
    cw_wrapGreedy_prefix 250 (chunksOf (c0 :: ttail)) 0 [] rfl (by omega)
  rw [List.nil_append] at hp1
  rw [cw_chunksOf_flatten (c0 :: ttail).length (c0 :: ttail) (Nat.le_refl _)] at hp2
  have hch := chunksOf_cons c0 ttail
  obtain ⟨q, hq⟩ := cw_wrapGreedy_first 250 (by omega) c0
    (ttail.takeWhile (fun d => (d == ' ') == (c0 == ' ')))
    (chunksOf (ttail.dropWhile (fun d => (d == ' ') == (c0 == ' '))))
  rw [← hch] at hq
  have hne : wrapFirstLine 250 (c0 :: ttail) ≠ [] := by
    rw [hfl, hq]
    exact cw_dropTrailing_ne_nil (c0 :: q) c0 (List.mem_cons_self c0 q) hc0
  refine ⟨wrapFirstLine 250 (c0 :: ttail), ?_, ?_, ?_⟩
  · obtain ⟨e0, et, hce⟩ := List.exists_cons_of_ne_nil hne
    unfold wrapFirst
    rw [hce]
  · rw [hfl, hp1]
    calc (dropTrailingSpaces p).length ≤ p.length := (cw_dropTrailing_isPre p).length_le
      _ ≤ 250 := by rw [hp1] at hp3; exact hp3
  · rw [hfl, hp1]
    exact (cw_dropTrailing_isPre p).trans hp2

/-- C8: on a single-line comment body that survives the quote / heading
/ HTML-comment filter, is not whitespace-only, and whose whitespace is
only plain spaces, `fmt_short_comment_body` returns a prefix of the
hex-abbreviated stripped line of at most 250 characters, unabridged
exactly when that processed line fits in 250 characters, with the
ellipsis marker appended exactly when the returned core differs from
the processed line.  The returned text is a prefix of the
hex-abbreviated line, not of the raw body: see `c8_counterexample`. -/
theorem c8_truncation (body : Str)
    (hsingle : pySplitlines body = [body])
    (hws : ∀ c ∈ body, pyIsSpace c = true → c = ' ')
    (hkept : commentLineKept body = true)
    (hnb : ¬(pyStrip body = [])) :
    ∃ core : Str,
      fmt_short_comment_body (J.str body) =
        .ok (if core = hexAbbrev (pyStrip body) then core else core ++ str " […]") ∧
      core.length ≤ 250 ∧
      core <+: hexAbbrev (pyStrip body) ∧
      ((hexAbbrev (pyStrip body)).length ≤ 250 → core = hexAbbrev (pyStrip body)) ∧
      (250 < (hexAbbrev (pyStrip body)).length → core ≠ hexAbbrev (pyStrip body)) := by
  have hws_Q : ∀ c ∈ pyStrip body, pyIsSpace c = true → c = ' ' :=
    fun c hc => hws c (cw_strip_subset body c hc)
  have hws_P : ∀ c ∈ hexAbbrev (pyStrip body), pyIsSpace c = true → c = ' ' :=
    fun c hc =>
      hws_Q c (cw_hexAbbrev_subset (pyStrip body).length (pyStrip body) (Nat.le_refl _) c hc)
  obtain ⟨h0, hh0, hh0s⟩ := cw_strip_head body hnb
  have hHead : (hexAbbrev (pyStrip body)).head? = some h0 := by
    rw [cw_hexAbbrev_head]
    exact hh0
  have hh0ne : h0 ≠ ' ' := by
    intro he
    rw [he] at hh0s
    exact absurd hh0s (by decide)
  obtain ⟨core, hwf, hclen, hcpre⟩ :=
    cw_wrapFirst_spec (hexAbbrev (pyStrip body)) h0 hHead hh0ne hws_P
  have hPne : hexAbbrev (pyStrip body) ≠ [] := cw_hexAbbrev_ne_nil (pyStrip body) hnb
  have hlastP : ∀ d, (hexAbbrev (pyStrip body)).getLast? = some d → d ≠ ' ' := by
    intro d hd he
    rcases cw_hexAbbrev_getLast (pyStrip body).length (pyStrip body) (Nat.le_refl _) with
      hnil | ⟨d2, hd2, hd2src⟩
    · exact hPne hnil
    · rw [hd] at hd2
      obtain rfl : d = d2 := Option.some.inj hd2
      rcases hd2src with h1 | h1
      · obtain ⟨d3, hd3, hd3s⟩ := cw_strip_getLast body hnb
        rw [h1] at hd3
        obtain rfl : d = d3 := Option.some.inj hd3
        rw [he] at hd3s
        exact absurd hd3s (by decide)
      · have := cw_hexChar_not_space d h1
        rw [he] at this
        exact absurd this (by decide)
  have hIdent : (hexAbbrev (pyStrip body)).length ≤ 250 → core = hexAbbrev (pyStrip body) := by
    intro hPlen
    have hid : wrapFirstLine 250 (hexAbbrev (pyStrip body)) = hexAbbrev (pyStrip body) :=
      cw_wrapFirstLine_id 250 (hexAbbrev (pyStrip body)) hws_P hlastP hPlen
    have hwf2 : wrapFirst 250 (hexAbbrev (pyStrip body)) = .ok (hexAbbrev (pyStrip body)) := by
      obtain ⟨e0, et, hce⟩ := List.exists_cons_of_ne_nil hPne
      unfold wrapFirst
      rw [hid, hce]
    rw [hwf2] at hwf
    exact (Except.ok.inj hwf).symm
  have hDiff : 250 < (hexAbbrev (pyStrip body)).length → core ≠ hexAbbrev (pyStrip body) := by
    intro hlt heq
    rw [heq] at hclen
    omega
  have hlines : ((pySplitlines body).filter commentLineKept).map pyStrip = [pyStrip body] := by
    rw [hsingle]
    simp [hkept]
  have step : fmt_short_comment_body (J.str body) =
      (if pyStrip body = [] then Except.ok (str "(empty comment)")
       else
         match ((pySplitlines body).filter commentLineKept).map pyStrip with
         | [] => Except.ok (str "(no body text)")
         | l0 :: restLines =>
             match wrapFirst 250 (hexAbbrev l0) with
             | .error e => Except.error e
             | .ok short =>
                 if restLines ≠ [] ∨ short ≠ hexAbbrev l0 then Except.ok (short ++ str " […]")
                 else Except.ok short) := rfl
  refine ⟨core, ?_, hclen, hcpre, hIdent, hDiff⟩
  rw [step, if_neg hnb, hlines]
  show (match wrapFirst 250 (hexAbbrev (pyStrip body)) with
    | .error e => Except.error e
    | .ok short =>
        if ([] : List Str) ≠ [] ∨ short ≠ hexAbbrev (pyStrip body) then
          Except.ok (short ++ str " […]")
        else Except.ok short) =
    Except.ok (if core = hexAbbrev (pyStrip body) then core else core ++ str " […]")
  rw [hwf]
  show (if ([] : List Str) ≠ [] ∨ core ≠ hexAbbrev (pyStrip body) then
      Except.ok (core ++ str " […]")
    else Except.ok core) =
    Except.ok (if core = hexAbbrev (pyStrip body) then core else core ++ str " […]")
  by_cases hcp : core = hexAbbrev (pyStrip body)
  · rw [if_neg (by simp [hcp]), if_pos hcp]
  · rw [if_pos (Or.inr hcp), if_neg hcp]

/-- Closed instance of `c8_truncation`: a 300-character single-line
body is cut to at most 250 characters (a prefix of the processed line)
with the ellipsis marker appended. -/
theorem c8_truncation_witness :
    ∃ core : Str,
      fmt_short_comment_body (J.str (List.replicate 300 'x')) =
        .ok (if core = hexAbbrev (pyStrip (List.replicate 300 'x')) then core
             else core ++ str " […]") ∧
      core.length ≤ 250 ∧
      core <+: hexAbbrev (pyStrip (List.replicate 300 'x')) ∧
      ((hexAbbrev (pyStrip (List.replicate 300 'x'))).length ≤ 250 →
        core = hexAbbrev (pyStrip (List.replicate 300 'x'))) ∧
      (250 < (hexAbbrev (pyStrip (List.replicate 300 'x'))).length →
        core ≠ hexAbbrev (pyStrip (List.replicate 300 'x'))) :=
  c8_truncation (List.replicate 300 'x') (by decide) (by decide) (by decide) (by decide)

/-- Counterexample to C8 as stated: a 40-character single-line body of
hexadecimal characters is well under 250 characters and has no further
content, yet it is not returned unchanged: the hex-run abbreviation
rewrites it to its first 7 characters (with no ellipsis marker). -/
theorem c8_counterexample :
    (List.replicate 40 'a').length ≤ 250 ∧
    pySplitlines (List.replicate 40 'a') = [List.replicate 40 'a'] ∧
    commentLineKept (List.replicate 40 'a') = true ∧
    fmt_short_comment_body (J.str (List.replicate 40 'a')) = .ok (List.replicate 7 'a') ∧
    List.replicate 7 'a' ≠ List.replicate 40 'a' := by
  refine ⟨by decide, by decide, by decide, rfl, by decide⟩

end SopelGithub
